import Mathlib

/-!
# libmapper router: a shallow embedding of `src/router.c`

The router owns, per destination, a singly linked list of signal entries
(`struct _mapper_signal_mapping`), each of which owns a singly linked list of
mappings (`struct _mapper_mapping`).  Linked lists are embedded as Lean lists:
the head of the list is the node a C pointer designates, the tail is what its
`next` link reaches, and the empty list is the null pointer.

Pointer identity is kept explicit.  A signal and a mapping carry the address of
their heap block in a field `addr`; the C comparisons `sm->signal != sig` and
`*m == mapping` compare these addresses and nothing else.

C strings are lists of characters (the terminating NUL is the end of the list).
Vector lengths are C `int`s that count elements; they are embedded as natural
numbers (the array `applied[signal.props.length]` is only defined for those).
Allocation (`calloc`, `strdup`, `lo_message_new`) is taken to succeed.
-/

namespace Mapper

/-! ## Data model -/

/-- A value of the union `mapper_signal_value_t`, kept as its 32-bit pattern. -/
abbrev mapper_signal_value_t := Nat

/-- Modelled from the spec: the enumeration `mapper_mode_type` is declared in a
header that is not part of `src/`; the spec gives a mapping's mode as
"undefined | user-defined". -/
inductive mapper_mode_type where
  | MO_UNDEFINED
  | MO_USER (tag : Nat)
  deriving DecidableEq, Repr

/-- Modelled from the spec: the enumeration `mapper_clipping_type` is declared in
a header that is not part of `src/`; the spec gives each clip policy as
"one of {none, bounded-value}". -/
inductive mapper_clipping_type where
  | CT_NONE
  | CT_BOUNDED (tag : Nat)
  deriving DecidableEq, Repr

/-- The fields of `sig->props` that `router.c` reads. -/
structure mapper_db_signal where
  name : List Char
  type : Char
  length : Nat
  deriving DecidableEq, Repr

/-- A `mapper_signal`: a pointer to a `struct _mapper_signal`, given by the address
it holds and the properties found there. -/
structure mapper_signal where
  addr : Nat
  props : mapper_db_signal
  deriving DecidableEq, Repr

/-- The fields of `mapping->props` that `router.c` writes. -/
structure mapper_db_mapping where
  src_name : List Char
  src_type : Char
  src_length : Nat
  dest_name : List Char
  dest_type : Char
  dest_length : Nat
  mode : mapper_mode_type
  expression : List Char
  clip_min : mapper_clipping_type
  clip_max : mapper_clipping_type
  muted : Nat
  deriving DecidableEq, Repr

/-- A `mapper_mapping`: a pointer to a `struct _mapper_mapping`, given by the
address of the block and its properties.  The `next` link of the C struct is the
tail of the list the mapping sits in. -/
structure mapper_mapping where
  addr : Nat
  props : mapper_db_mapping
  deriving DecidableEq, Repr

/-- One node of the router's list of signal entries
(`struct _mapper_signal_mapping`): the signal it is for (a pointer, compared by
address) and the head of its list of mappings.  Its `next` link is the tail of
the list of entries. -/
structure mapper_signal_mapping where
  signal : Nat
  mapping : List mapper_mapping
  deriving DecidableEq, Repr

/-- A resolved network endpoint (`lo_address`). -/
structure lo_address where
  host : List Char
  port : List Char
  deriving DecidableEq, Repr

/-- A `struct _mapper_router`.  `addr` is `none` for a null endpoint.  The `next`
link that chains routers into a registry is the tail of the list of routers. -/
structure mapper_router where
  addr : Option lo_address
  dest_name : List Char
  device : Nat
  mappings : List mapper_signal_mapping
  deriving DecidableEq, Repr

/-! ## Locating a signal entry -/

/-- The loop `while (sm && sm->signal != sig) sm = sm->next;` that opens
`mapper_router_receive_signal`, `mapper_router_send_query` and
`mapper_router_add_mapping`: the first entry for the signal, `none` for null. -/
def find_signal_mapping : List mapper_signal_mapping → Nat → Option mapper_signal_mapping
  | [], _ => none
  | sm :: next, sig => if sm.signal ≠ sig then find_signal_mapping next sig else some sm

/-! ## mapper_router_add_mapping -/

/-- The two stores `mapping->next = sm->mapping; sm->mapping = mapping;` applied
to the entry the search loop stopped at, the first one for `sig`; every other
node of the list of entries is left as it is. -/
def link_mapping : List mapper_signal_mapping → Nat → mapper_mapping → List mapper_signal_mapping
  | [], _, _ => []
  | sm :: next, sig, mapping =>
    if sm.signal ≠ sig then sm :: link_mapping next sig mapping
    else { sm with mapping := mapping :: sm.mapping } :: next

/-- The function `mapper_router_add_mapping` (router.c:164-213).  `block` is the
address `calloc` returns for the new mapping.  The result is the returned pointer
(`none` for 0) and the router afterwards.  On a length mismatch the C code only
formats a name into a local buffer and prints a trace line before it returns. -/
def mapper_router_add_mapping (router : mapper_router) (sig : mapper_signal)
    (dest_name : List Char) (dest_type : Char) (dest_length : Nat) (block : Nat) :
    Option mapper_mapping × mapper_router :=
  if sig.props.length ≠ dest_length then
    (none, router)
  else
    let mapping : mapper_mapping :=
      { addr := block
        props :=
          { src_name := sig.props.name
            src_type := sig.props.type
            src_length := sig.props.length
            dest_name := dest_name
            dest_type := dest_type
            dest_length := dest_length
            mode := mapper_mode_type.MO_UNDEFINED
            expression := ['y', '=', 'x']
            clip_min := mapper_clipping_type.CT_NONE
            clip_max := mapper_clipping_type.CT_NONE
            muted := 0 } }
    match find_signal_mapping router.mappings sig.addr with
    | none =>
      (some mapping,
        { router with mappings := { signal := sig.addr, mapping := [mapping] } :: router.mappings })
    | some _ =>
      (some mapping, { router with mappings := link_mapping router.mappings sig.addr mapping })

/-! ## Outbound messages and the calls made to collaborators -/

/-- One argument of an OSC message: its type tag and its value. -/
structure lo_arg where
  type : Char
  val : mapper_signal_value_t
  deriving DecidableEq, Repr

/-- An OSC message under construction (`lo_message`): its arguments in the order
they were added. -/
structure lo_message where
  args : List lo_arg
  deriving DecidableEq, Repr

/-- The empty message `lo_message_new()` returns.  The allocation is taken to
succeed, so the `if (!m) return;` of router.c:120-121 is not taken. -/
def lo_message_new : lo_message := { args := [] }

/-- Modelled from the spec: `mval_add_to_message` is defined outside `src/`; the
spec has the send serialise "each element (using the signal descriptor's element
type) into a single outbound message", so the call appends one argument, tagged
with the descriptor's type. -/
def mval_add_to_message (m : lo_message) (sig : mapper_db_signal)
    (value : mapper_signal_value_t) : lo_message :=
  { args := m.args ++ [{ type := sig.type, val := value }] }

/-- A call that leaves `router.c` during a dispatch, in the order it is made:
`mapper_mapping_perform(m, sig, p, &v)` with `p` the byte offset into the input
vector, `mapper_clipping_perform(m, &v, &w)`, and
`lo_send_message(addr, path, msg)`. -/
inductive call where
  | mapping_perform (m : mapper_mapping) (sig : mapper_signal) (p : Nat)
  | clipping_perform (m : mapper_mapping) (v : mapper_signal_value_t)
  | send_message (addr : lo_address) (path : List Char) (msg : lo_message)
  deriving DecidableEq, Repr

/-- The messages handed to the transport, in order: the `lo_send_message` calls
of a trace. -/
def transmitted : List call → List (lo_address × List Char × lo_message)
  | [] => []
  | call.send_message addr path msg :: rest => (addr, path, msg) :: transmitted rest
  | call.mapping_perform _ _ _ :: rest => transmitted rest
  | call.clipping_perform _ _ :: rest => transmitted rest

/-- The external transform evaluator `mapper_mapping_perform`: given the mapping,
the source signal, the input vector (raw bytes) and the byte offset `p` points
at, either a transformed value (non-zero return, value stored through `&v`) or
failure (zero return). -/
abbrev transform_evaluator :=
  mapper_mapping → mapper_signal → List Nat → Nat → Option mapper_signal_value_t

/-- The external clip evaluator `mapper_clipping_perform`: given the mapping and
the transformed value, either the clipped value or failure. -/
abbrev clip_evaluator :=
  mapper_mapping → mapper_signal_value_t → Option mapper_signal_value_t

/-! ## mapper_router_send_signal -/

/-- The loop `for (i = 0; i < sig->props.length; i++) mval_add_to_message(m, sig, &value[i]);`
(router.c:123-124), from index `i` with `k` iterations left.  A read past the end
of `value`, which no caller in `router.c` causes, yields 0. -/
def send_signal_for (sig : mapper_db_signal) (value : List mapper_signal_value_t) :
    Nat → Nat → lo_message → lo_message
  | 0, _, m => m
  | k + 1, i, m => send_signal_for sig value k (i + 1) (mval_add_to_message m sig (value.getD i 0))

/-- The function `mapper_router_send_signal` (router.c:111-129), as the calls it
makes.  `sig` is the descriptor the pointer argument designates; only its `props`
are read. -/
def mapper_router_send_signal (router : mapper_router) (sig : mapper_db_signal)
    (value : List mapper_signal_value_t) : List call :=
  match router.addr with
  | none => []
  | some addr =>
    [call.send_message addr sig.name (send_signal_for sig value sig.length 0 lo_message_new)]

/-! ## mapper_router_receive_signal -/

/-- Size in bytes of a C `int` on the platforms the library targets. -/
def sizeof_int : Nat := 4

/-- Size in bytes of a C `float`. -/
def sizeof_float : Nat := 4

/-- The element stride `s` of router.c:81-90: 4 unless the destination type selects
`sizeof(int)` or `sizeof(float)`. -/
def element_size (type : Char) : Nat :=
  if type = 'i' then sizeof_int
  else if type = 'f' then sizeof_float
  else 4

/-- The loop `for (i=0; i < signal.props.length; i++)` of router.c:92-104, entered
at index `i` with `p` the current byte offset into `value`, `applied` the
elements stored so far and `k = signal.props.length - i` iterations left.  The
result is the value of `i` when the loop is left (by the bound or by `break`),
the array `applied`, and the calls made. -/
def receive_signal_for (perform : transform_evaluator) (clip : clip_evaluator)
    (m : mapper_mapping) (sig : mapper_signal) (value : List Nat) (s : Nat) :
    Nat → Nat → Nat → List mapper_signal_value_t →
      Nat × List mapper_signal_value_t × List call
  | 0, i, _, applied => (i, applied, [])
  | k + 1, i, p, applied =>
    match perform m sig value p with
    | none => (i, applied, [call.mapping_perform m sig p])
    | some v =>
      match clip m v with
      | none => (i, applied, [call.mapping_perform m sig p, call.clipping_perform m v])
      | some w =>
        let r := receive_signal_for perform clip m sig value s k (i + 1) (p + s) (applied ++ [w])
        (r.1, r.2.1, call.mapping_perform m sig p :: call.clipping_perform m v :: r.2.2)

/-- The body of the loop `while (m)` of router.c:73-107 for one mapping `m`: build
the outbound descriptor, run the element loop, and send only when the loop ran to
`i == signal.props.length`. -/
def receive_signal_mapping (perform : transform_evaluator) (clip : clip_evaluator)
    (router : mapper_router) (sig : mapper_signal) (value : List Nat)
    (m : mapper_mapping) : List call :=
  let signal : mapper_db_signal :=
    { name := m.props.dest_name, type := m.props.dest_type, length := m.props.dest_length }
  let s := element_size signal.type
  let r := receive_signal_for perform clip m sig value s signal.length 0 0 []
  if r.1 = signal.length then r.2.2 ++ mapper_router_send_signal router signal r.2.1
  else r.2.2

/-- The loop `while (m) { ...; m = m->next; }` of router.c:73-108 over a collection. -/
def receive_signal_while (perform : transform_evaluator) (clip : clip_evaluator)
    (router : mapper_router) (sig : mapper_signal) (value : List Nat) :
    List mapper_mapping → List call
  | [] => []
  | m :: next =>
    receive_signal_mapping perform clip router sig value m
      ++ receive_signal_while perform clip router sig value next

/-- The function `mapper_router_receive_signal` (router.c:59-109): the router
afterwards (no field of it is written) and the calls made, in order. -/
def mapper_router_receive_signal (perform : transform_evaluator) (clip : clip_evaluator)
    (router : mapper_router) (sig : mapper_signal) (value : List Nat) :
    mapper_router × List call :=
  match find_signal_mapping router.mappings sig.addr with
  | none => (router, [])
  | some sm => (router, receive_signal_while perform clip router sig value sm.mapping)

/-- The outcome of the element pipeline of mapping `m` on element `i` of the input
vector: `clip(m, transform(m, sig, value[i]))`, where `value[i]` is the 4-byte
element at byte offset `4 * i`; `none` when either evaluator fails there. -/
def element_outcome (perform : transform_evaluator) (clip : clip_evaluator)
    (m : mapper_mapping) (sig : mapper_signal) (value : List Nat) (i : Nat) :
    Option mapper_signal_value_t :=
  (perform m sig value (4 * i)).bind (clip m)

/-- Transform and clip succeed on all `dest_length` elements of the input vector
for mapping `m`. -/
def all_elements_succeed (perform : transform_evaluator) (clip : clip_evaluator)
    (m : mapper_mapping) (sig : mapper_signal) (value : List Nat) : Bool :=
  (List.range m.props.dest_length).all
    (fun i => (element_outcome perform clip m sig value i).isSome)

/-! ## mapper_router_remove_mapping -/

/-- The inner loop `while (*m)` of router.c:222-229 over one collection, looking
for the block at address `mapping`.  On the identity match `*m == mapping` the
store `*m = mapping->next` puts the rest of the list in the place of the node
(`mapping->next` is the `next` link of the matched node); the result is the
collection afterwards, `none` when the loop ends without a match. -/
def remove_mapping_scan : List mapper_mapping → Nat → Option (List mapper_mapping)
  | [], _ => none
  | m :: next, mapping =>
    if m.addr = mapping then some next
    else (remove_mapping_scan next mapping).map (fun rest => m :: rest)

/-- The outer loop `while (sm)` of router.c:220-231 over the signal entries: the
list of entries after the first match was unlinked, `none` when no entry holds
the mapping. -/
def remove_mapping_while : List mapper_signal_mapping → Nat → Option (List mapper_signal_mapping)
  | [], _ => none
  | sm :: next, mapping =>
    match remove_mapping_scan sm.mapping mapping with
    | some rest => some ({ sm with mapping := rest } :: next)
    | none => (remove_mapping_while next mapping).map (fun rest => sm :: rest)

/-- The function `mapper_router_remove_mapping` (router.c:215-233): the returned
`int` (0 when the mapping was unlinked, 1 when it was not found) and the router
afterwards.  `mapping` is the pointer argument; only its address is compared.
`free(mapping)` releases a block the lists no longer reach. -/
def mapper_router_remove_mapping (router : mapper_router) (mapping : mapper_mapping) :
    Nat × mapper_router :=
  match remove_mapping_while router.mappings mapping.addr with
  | some entries => (0, { router with mappings := entries })
  | none => (1, router)

/-! ## mapper_router_find_by_dest_name -/

/-- The C function `strlen`. -/
def strlen (s : List Char) : Nat := s.length

/-- The C function `strchr(s, c)` for a character `c` other than NUL: the offset
from `s` of the first occurrence of `c`, `none` for the null result. -/
def strchr : List Char → Char → Option Nat
  | [], _ => none
  | x :: rest, c => if x = c then some 0 else (strchr rest c).map (fun k => k + 1)

/-- The C function `strncmp(s1, s2, n)`, by the sign of its result: at most `n`
characters are compared, and the end of a string compares below any character. -/
def strncmp : List Char → List Char → Nat → Int
  | _, _, 0 => 0
  | [], [], _ + 1 => 0
  | [], _ :: _, _ + 1 => -1
  | _ :: _, [], _ + 1 => 1
  | c1 :: s1, c2 :: s2, n + 1 =>
    if c1 = c2 then strncmp s1 s2 n
    else if c1.toNat < c2.toNat then -1 else 1

/-- The value of `n` after router.c:238-241: the offset `slash - dest_name` of the
first `'/'` that `strchr(dest_name+1, '/')` finds, or `strlen(dest_name)` when the
search reaches a NUL first.  For a name that is not empty the search runs over
the rest of the name.  For the empty name `dest_name + 1` is one past the
terminator, and the search runs over `after`, the characters stored behind the
terminator up to the next NUL. -/
def compare_length (dest_name : List Char) (after : List Char) : Nat :=
  match strchr (match dest_name with
                | [] => after
                | _ :: rest => rest) '/' with
  | some k => k + 1
  | none => strlen dest_name

/-- The loop `while (router)` of router.c:243-247 over the routers reached through
`next`: the first whose name compares equal on `n` characters, `none` for 0. -/
def find_by_dest_name_while : List mapper_router → List Char → Nat → Option mapper_router
  | [], _, _ => none
  | router :: next, dest_name, n =>
    if strncmp router.dest_name dest_name n = 0 then some router
    else find_by_dest_name_while next dest_name n

/-- The function `mapper_router_find_by_dest_name` (router.c:235-249).  The
argument `router` is the head of the registry list, `dest_name` the string at the
pointer argument and `after` the characters stored behind its terminator, which
the function reads only when `dest_name` is empty. -/
def mapper_router_find_by_dest_name (router : List mapper_router) (dest_name : List Char)
    (after : List Char) : Option mapper_router :=
  find_by_dest_name_while router dest_name (compare_length dest_name after)

/-- Follows the spec's words: the first path segment of a name that begins with
`'/'`, "the text after the leading '/' up to the second '/' or the end of the
string". -/
def segment_after_leading_slash (name : List Char) : List Char :=
  (name.drop 1).takeWhile (fun c => c != '/')

/-- A router of a registry, created with destination name `name` for device
`device`, with its endpoint resolved and no mapping. -/
def registry_router (name : List Char) (device : Nat) : mapper_router :=
  { addr := some { host := ['l', 'o', 'c', 'a', 'l', 'h', 'o', 's', 't'], port := ['9', '0', '0', '0'] }
    dest_name := name
    device := device
    mappings := [] }

/-! ## mapper_router_send_query -/

/-- The string a `char` array holds.  A cell is a character, or `none` for NUL; the
string is what precedes the first NUL, and there is none (`none`) when the array
has no NUL, so that a read of the string runs past the array. -/
def array_string : List (Option Char) → Option (List Char)
  | [] => none
  | none :: _ => some []
  | some c :: rest => (array_string rest).map (fun s => c :: s)

/-- The C function `strncpy(dst, src, n)` on an array `dst` of at least `n` cells:
the first `n` cells become the first `n` characters of `src`, padded with NUL
when `src` is shorter, with no NUL when it is not; the cells after them stay. -/
def strncpy (dst : List (Option Char)) (src : List Char) (n : Nat) : List (Option Char) :=
  (src.take n).map some ++ List.replicate (n - src.length) none ++ dst.drop n

/-- The C function `strncat(dst, src, n)` on an array `dst`: at most `n` characters
of `src` and then a NUL are written after the string `dst` holds.  The result is
`none` when the call is undefined: `dst` holds no string, or the characters and
the NUL do not fit the array. -/
def strncat (dst : List (Option Char)) (src : List Char) (n : Nat) :
    Option (List (Option Char)) :=
  match array_string dst with
  | none => none
  | some s =>
    if (s ++ src.take n).length + 1 ≤ dst.length then
      some ((s ++ src.take n).map some ++ none :: dst.drop ((s ++ src.take n).length + 1))
    else none

/-- The address built in `char query_string[1024]` by router.c:148-149,
`strncpy(query_string, dest_name, 1024); strncat(query_string, "/get", 1024);`.
Every cell of the local array is written by `strncpy` before it is read.  The
result is `none` when the two calls overrun the array. -/
def query_string (dest_name : List Char) : Option (List Char) :=
  (strncat (strncpy (List.replicate 1024 none) dest_name 1024) ['/', 'g', 'e', 't'] 1024).bind
    array_string

/-- One call `lo_send_from(router->addr, router->device->server, LO_TT_IMMEDIATE,
query_string, types, ...)`: the endpoint, the device whose server is the reply
source, the address, the type string and the string arguments. -/
structure lo_send_from_call where
  addr : Option lo_address
  device : Nat
  path : List Char
  types : List Char
  args : List (List Char)
  deriving DecidableEq, Repr

/-- The call `lo_send_from` of router.c:150-157 with the address `path` held by
`query_string`; `alias_arg` is the argument `alias`, `none` for a null pointer. -/
def send_query_message (router : mapper_router) (alias_arg : Option (List Char))
    (path : List Char) : lo_send_from_call :=
  match alias_arg with
  | some a =>
    { addr := router.addr, device := router.device, path := path, types := ['s'], args := [a] }
  | none =>
    { addr := router.addr, device := router.device, path := path, types := [], args := [] }

/-- The loop `while (m) { ...; count++; m = m->next; }` of router.c:147-160 entered
with `count`: the final `count` and the queries sent, in order.  The result is
`none` when `query_string` is overrun for a mapping the loop reaches: the array is
a local of the running function, next to `count` and `m`, and from the overrun on
the behaviour of the call is undefined, the count returned and the queries sent
included. -/
def send_query_while (router : mapper_router) (alias_arg : Option (List Char)) :
    List mapper_mapping → Nat → Option (Nat × List lo_send_from_call)
  | [], count => some (count, [])
  | m :: next, count =>
    match query_string m.props.dest_name with
    | none => none
    | some path =>
      (send_query_while router alias_arg next (count + 1)).map
        (fun r => (r.1, send_query_message router alias_arg path :: r.2))

/-- The function `mapper_router_send_query` (router.c:131-162): the returned count
and the queries sent, in order, or `none` when the behaviour of the call is
undefined. -/
def mapper_router_send_query (router : mapper_router) (sig : mapper_signal)
    (alias_arg : Option (List Char)) : Option (Nat × List lo_send_from_call) :=
  match find_signal_mapping router.mappings sig.addr with
  | none => some (0, [])
  | some sm => send_query_while router alias_arg sm.mapping 0

/-! ## mapper_router_free -/

/-- A block handed to `lo_address_free` or `free`, in the order of the calls. -/
inductive released where
  | address (addr : lo_address)
  | string (s : List Char)
  | mapping (addr : Nat)
  | signal_mapping (signal : Nat)
  | router
  deriving DecidableEq, Repr

/-- The loop `while (m)` of router.c:41-49 over one collection.  With
`tmp = m->next`, the body reads `tmp->props.src_name` and `tmp->props.dest_name`
(the names were set by `strdup` and are not null), frees them, and frees `m`.
The result is `none` when the body dereferences a null `tmp`, which is the case
at the last mapping of the collection. -/
def free_mapping_while : List mapper_mapping → Option (List released)
  | [] => some []
  | m :: next =>
    match next with
    | [] => none
    | tmp :: _ =>
      (free_mapping_while next).map (fun rest =>
        released.string tmp.props.src_name :: released.string tmp.props.dest_name
          :: released.mapping m.addr :: rest)

/-- The loop `while (sm)` of router.c:36-53 over the signal entries: for each
entry, the mappings (when `sm->mapping` is not null), then the entry itself. -/
def free_signal_mapping_while : List mapper_signal_mapping → Option (List released)
  | [] => some []
  | sm :: tmp =>
    match free_mapping_while sm.mapping with
    | none => none
    | some r1 =>
      (free_signal_mapping_while tmp).map (fun r2 =>
        r1 ++ released.signal_mapping sm.signal :: r2)

/-- The function `mapper_router_free` (router.c:29-57) on a router pointer (`none`
for null): the blocks released, in order, or `none` when the function
dereferences a null pointer and does not run to completion. -/
def mapper_router_free : Option mapper_router → Option (List released)
  | none => some []
  | some router =>
    (free_signal_mapping_while router.mappings).map (fun r =>
      (match router.addr with
       | some addr => [released.address addr]
       | none => []) ++ r ++ [released.router])

/-! ## mapper_router_new -/

/-- The decimal digits of a natural number, most significant first, with `k`
digits still allowed (an `int` has at most ten). -/
def decimal_digits : Nat → Nat → List Char
  | 0, _ => []
  | k + 1, n =>
    if n < 10 then [Char.ofNat (48 + n)]
    else decimal_digits k (n / 10) ++ [Char.ofNat (48 + n % 10)]

/-- The string `sprintf(str, "%d", port)` writes into `char str[16]`: at most a sign
and ten digits, which fit. -/
def sprintf_d (port : Int) : List Char :=
  if port < 0 then '-' :: decimal_digits 10 port.natAbs
  else decimal_digits 10 port.natAbs

/-- The function `mapper_router_new` (router.c:12-27).  `lo_address_new` is the
external endpoint resolution, `none` for a null result.  The result is the
returned pointer (`none` for 0) and the blocks released before the return, or
`none` if the call to `mapper_router_free` does not run to completion. -/
def mapper_router_new (lo_address_new : List Char → List Char → Option lo_address)
    (device : Nat) (host : List Char) (port : Int) (name : List Char) :
    Option (Option mapper_router × List released) :=
  let str := sprintf_d port
  let router : mapper_router :=
    { addr := lo_address_new host str, dest_name := name, device := device, mappings := [] }
  match router.addr with
  | none => (mapper_router_free (some router)).map (fun r => (none, r))
  | some _ => some (some router, [])

/-! ## States reachable from a fresh router -/

/-- No two entries of the router's list of signal entries are for the same signal. -/
def one_entry_per_signal (router : mapper_router) : Prop :=
  (router.mappings.map (fun sm => sm.signal)).Nodup

instance (router : mapper_router) : Decidable (one_entry_per_signal router) := by
  unfold one_entry_per_signal
  exact inferInstance

/-- The routers reachable from a freshly created one by calls of
`mapper_router_add_mapping` and `mapper_router_remove_mapping`. -/
inductive reachable : mapper_router → Prop where
  | fresh (lo_address_new : List Char → List Char → Option lo_address) (device : Nat)
      (host : List Char) (port : Int) (name : List Char) (router : mapper_router) :
      mapper_router_new lo_address_new device host port name = some (some router, []) →
      reachable router
  | add (router : mapper_router) (sig : mapper_signal) (dest_name : List Char)
      (dest_type : Char) (dest_length : Nat) (block : Nat) :
      reachable router →
      reachable (mapper_router_add_mapping router sig dest_name dest_type dest_length block).2
  | remove (router : mapper_router) (mapping : mapper_mapping) :
      reachable router → reachable (mapper_router_remove_mapping router mapping).2

/-- Follows the claim's words: the offset of the `(k+1)`-th `'/'` of a name, or the
full length of the name when it has fewer. -/
def slash_offset : Nat → List Char → Nat
  | _, [] => 0
  | k, c :: rest =>
    if c = '/' then
      match k with
      | 0 => 0
      | j + 1 => 1 + slash_offset j rest
    else 1 + slash_offset k rest

/-- Follows the claim's words: "the offset of the second '/' in the lookup name or
its full length when there is none". -/
def second_slash_offset (name : List Char) : Nat :=
  slash_offset 1 name

/-- Follows the amended claim's words: "the offset of the first '/' found after
the first character of the lookup name, or its full length when there is none". -/
def slash_offset_after_first : List Char → Nat
  | [] => 0
  | _ :: rest => 1 + slash_offset 0 rest

/-- Follows the spec's words: "matching compares only the prefix up to (but
excluding) the second `/`"; the text of a lookup name that is compared is its
first character and what follows it up to the next `'/'`. -/
def compared_text : List Char → List Char
  | [] => []
  | c :: rest => c :: rest.takeWhile (fun x => x != '/')

/-- An endpoint resolution that succeeds for the host `localhost` only. -/
def scenario_lo_address_new (host : List Char) (port : List Char) : Option lo_address :=
  if host = ['l', 'o', 'c', 'a', 'l', 'h', 'o', 's', 't'] then some { host := host, port := port }
  else none

/-! ## The scenario of the specification

A router to `("localhost", 9000, "/dest")`, a float signal `S` of length 2, and
the input vector `[1.0, 2.0]` as the eight bytes of two little-endian IEEE-754
singles (`1.0f = 0x3F800000`, `2.0f = 0x40000000`). -/

/-- The router of the scenario, with its endpoint resolved and no mapping yet. -/
def scenario_router : mapper_router :=
  { addr := some { host := ['l', 'o', 'c', 'a', 'l', 'h', 'o', 's', 't'], port := ['9', '0', '0', '0'] }
    dest_name := ['/', 'd', 'e', 's', 't']
    device := 1
    mappings := [] }

/-- The signal `S` of the scenario: float32, length 2, at address 100. -/
def scenario_signal : mapper_signal :=
  { addr := 100, props := { name := ['/', 'S'], type := 'f', length := 2 } }

/-- Another signal, at address 200, that the scenario never maps. -/
def scenario_other_signal : mapper_signal :=
  { addr := 200, props := { name := ['/', 'T'], type := 'f', length := 2 } }

/-- The bytes of the vector `[1.0, 2.0]`. -/
def scenario_value : List Nat := [0, 0, 128, 63, 0, 0, 0, 64]

/-- The bit pattern of the single-precision float `1.0`. -/
def float_one : mapper_signal_value_t := 1065353216

/-- The bit pattern of the single-precision float `2.0`. -/
def float_two : mapper_signal_value_t := 1073741824

/-- An identity transform (`"y=x"`): the 4-byte element at offset `p`, read
little-endian, is the transformed value; it never fails. -/
def scenario_identity : transform_evaluator := fun _ _ value p =>
  some (value.getD p 0 + 256 * value.getD (p + 1) 0 + 65536 * value.getD (p + 2) 0
    + 16777216 * value.getD (p + 3) 0)

/-- A clip evaluator without clipping: every value passes unchanged. -/
def scenario_no_clip : clip_evaluator := fun _ v => some v

/-- A clip evaluator that fails on the value `bad` for the mapping at address
`block` and passes everything else unchanged. -/
def scenario_clip_failing (block : Nat) (bad : mapper_signal_value_t) : clip_evaluator :=
  fun m v => if m.addr = block ∧ v = bad then none else some v

/-- The mapping the scenario creates from `S` to `dest_name`, at address `block`. -/
def scenario_mapping (dest_name : List Char) (block : Nat) : mapper_mapping :=
  { addr := block
    props :=
      { src_name := ['/', 'S']
        src_type := 'f'
        src_length := 2
        dest_name := dest_name
        dest_type := 'f'
        dest_length := 2
        mode := mapper_mode_type.MO_UNDEFINED
        expression := ['y', '=', 'x']
        clip_min := mapper_clipping_type.CT_NONE
        clip_max := mapper_clipping_type.CT_NONE
        muted := 0 } }

/-- The scenario's router after `S` was mapped to `/dest/x` (block 500). -/
def scenario_router_x : mapper_router :=
  (mapper_router_add_mapping scenario_router scenario_signal
    ['/', 'd', 'e', 's', 't', '/', 'x'] 'f' 2 500).2

/-- The scenario's router after `S` was mapped to `/dest/x` (block 500) and then
to `/dest/y` (block 501). -/
def scenario_router_xy : mapper_router :=
  (mapper_router_add_mapping scenario_router_x scenario_signal
    ['/', 'd', 'e', 's', 't', '/', 'y'] 'f' 2 501).2

/-- The scenario's router after `S` was mapped to `/dest/x` twice (blocks 500
and 503): two mappings that share a destination name. -/
def scenario_router_xx : mapper_router :=
  (mapper_router_add_mapping scenario_router_x scenario_signal
    ['/', 'd', 'e', 's', 't', '/', 'x'] 'f' 2 503).2

/-- A destination name of 2000 characters: `/` followed by 1999 times `a`. -/
def scenario_long_name : List Char := '/' :: List.replicate 1999 'a'

/-- The scenario's router after `S` was mapped to the 2000-character name
(block 502). -/
def scenario_router_long : mapper_router :=
  (mapper_router_add_mapping scenario_router scenario_signal scenario_long_name 'f' 2 502).2

/-- The scenario's router after `S` was mapped to the 2000-character name
(block 502) and then to `/dest/x` (block 500): the dispatch order is `/dest/x`
first, the long name second. -/
def scenario_router_x_long : mapper_router :=
  (mapper_router_add_mapping scenario_router_long scenario_signal
    ['/', 'd', 'e', 's', 't', '/', 'x'] 'f' 2 500).2

/-- The alias `tag42` of the query scenario. -/
def scenario_alias : List Char := ['t', 'a', 'g', '4', '2']

/-! ## Theorems -/

/-- C1: `mapper_router_add_mapping` returns a mapping exactly when the signal's
length equals `dest_length`; when the lengths differ it returns null and the
router (its list of signal entries and every mapping collection) is the one it
was given. -/
theorem add_mapping_returns_iff_lengths_match (router : mapper_router) (sig : mapper_signal)
    (dest_name : List Char) (dest_type : Char) (dest_length : Nat) (block : Nat) :
    ((mapper_router_add_mapping router sig dest_name dest_type dest_length block).1.isSome = true
        ↔ sig.props.length = dest_length)
    ∧ (sig.props.length ≠ dest_length →
        mapper_router_add_mapping router sig dest_name dest_type dest_length block
          = (none, router)) := by
  unfold mapper_router_add_mapping
  by_cases h : sig.props.length = dest_length
  · simp only [h, ne_eq, not_true_eq_false, if_false, true_iff]
    refine ⟨?_, fun hne => hne.elim⟩
    cases find_signal_mapping router.mappings sig.addr <;> simp
  · simp [h]

/-! ### The dispatch loop -/

theorem element_size_eq (type : Char) : element_size type = 4 := by
  unfold element_size sizeof_int sizeof_float
  split_ifs <;> rfl

theorem transmitted_append (xs ys : List call) :
    transmitted (xs ++ ys) = transmitted xs ++ transmitted ys := by
  induction xs with
  | nil => rfl
  | cons c rest ih => cases c <;> simp [transmitted, ih]

/-- The element loop never sends: its calls are evaluator calls only. -/
theorem receive_signal_for_transmitted (perform : transform_evaluator) (clip : clip_evaluator)
    (m : mapper_mapping) (sig : mapper_signal) (value : List Nat) (s k i p : Nat)
    (applied : List mapper_signal_value_t) :
    transmitted (receive_signal_for perform clip m sig value s k i p applied).2.2 = [] := by
  induction k generalizing i p applied with
  | zero => rfl
  | succ k ih =>
    cases hp : perform m sig value p with
    | none => simp [receive_signal_for, hp, transmitted]
    | some v =>
      cases hc : clip m v with
      | none => simp [receive_signal_for, hp, hc, transmitted]
      | some w =>
        simpa [receive_signal_for, hp, hc, transmitted] using ih (i + 1) (p + s) (applied ++ [w])

/-- The loop reaches the bound exactly when no element fails. -/
theorem receive_signal_for_complete_iff (perform : transform_evaluator) (clip : clip_evaluator)
    (m : mapper_mapping) (sig : mapper_signal) (value : List Nat) (s k i p : Nat)
    (applied : List mapper_signal_value_t) :
    (receive_signal_for perform clip m sig value s k i p applied).1 = i + k
      ↔ ∀ j, j < k → ((perform m sig value (p + j * s)).bind (clip m)).isSome = true := by
  induction k generalizing i p applied with
  | zero => simp [receive_signal_for]
  | succ k ih =>
    cases hp : perform m sig value p with
    | none =>
      simp only [receive_signal_for, hp]
      constructor
      · intro h; omega
      · intro h
        have := h 0 (Nat.succ_pos k)
        simp [hp] at this
    | some v =>
      cases hc : clip m v with
      | none =>
        simp only [receive_signal_for, hp, hc]
        constructor
        · intro h; omega
        · intro h
          have := h 0 (Nat.succ_pos k)
          simp [hp, hc] at this
      | some w =>
        simp only [receive_signal_for, hp, hc]
        have hk := ih (i + 1) (p + s) (applied ++ [w])
        have e : i + (k + 1) = i + 1 + k := by omega
        rw [e, hk]
        constructor
        · intro h j hj
          cases j with
          | zero => simp [hp, hc]
          | succ j =>
            have := h j (by omega)
            have e2 : p + s + j * s = p + (j + 1) * s := by ring
            rwa [e2] at this
        · intro h j hj
          have := h (j + 1) (by omega)
          have e2 : p + s + j * s = p + (j + 1) * s := by ring
          rwa [e2]

/-- When the loop reaches the bound, `applied` holds the outcome of every element
in index order. -/
theorem receive_signal_for_applied (perform : transform_evaluator) (clip : clip_evaluator)
    (m : mapper_mapping) (sig : mapper_signal) (value : List Nat) (s k i p : Nat)
    (applied : List mapper_signal_value_t)
    (h : (receive_signal_for perform clip m sig value s k i p applied).1 = i + k) :
    (receive_signal_for perform clip m sig value s k i p applied).2.1.map some
      = applied.map some
        ++ (List.range k).map (fun j => (perform m sig value (p + j * s)).bind (clip m)) := by
  induction k generalizing i p applied with
  | zero => simp [receive_signal_for]
  | succ k ih =>
    cases hp : perform m sig value p with
    | none => simp only [receive_signal_for, hp] at h; omega
    | some v =>
      cases hc : clip m v with
      | none => simp only [receive_signal_for, hp, hc] at h; omega
      | some w =>
        simp only [receive_signal_for, hp, hc] at h ⊢
        have e : i + (k + 1) = i + 1 + k := by omega
        rw [e] at h
        rw [ih (i + 1) (p + s) (applied ++ [w]) h, List.range_succ_eq_map]
        simp only [List.map_append, List.map_cons, List.map_nil, List.map_map, List.append_assoc,
          List.singleton_append, Nat.zero_mul, Nat.add_zero, hp, hc, Option.bind_some]
        congr 2
        · simp [hc]
        · apply List.map_congr_left
          intro j _
          simp only [Function.comp_apply]
          have e2 : p + s + j * s = p + (j + 1) * s := by ring
          rw [e2]

/-! ### One mapping -/

theorem send_signal_for_args (sig : mapper_db_signal) (value : List mapper_signal_value_t)
    (k i : Nat) (m : lo_message) :
    (send_signal_for sig value k i m).args
      = m.args ++ (List.range k).map
          (fun j => ({ type := sig.type, val := value.getD (i + j) 0 } : lo_arg)) := by
  induction k generalizing i m with
  | zero => simp [send_signal_for]
  | succ k ih =>
    rw [send_signal_for, ih, List.range_succ_eq_map]
    simp only [mval_add_to_message, List.append_assoc, List.singleton_append, List.map_cons,
      List.map_map, Nat.add_zero]
    congr 2
    apply List.map_congr_left
    intro j _
    simp only [Function.comp_apply]
    have e : i + 1 + j = i + (j + 1) := by omega
    rw [e]

theorem all_elements_succeed_iff (perform : transform_evaluator) (clip : clip_evaluator)
    (m : mapper_mapping) (sig : mapper_signal) (value : List Nat) :
    all_elements_succeed perform clip m sig value = true
      ↔ (receive_signal_for perform clip m sig value (element_size m.props.dest_type)
            m.props.dest_length 0 0 []).1 = m.props.dest_length := by
  have h := receive_signal_for_complete_iff perform clip m sig value
    (element_size m.props.dest_type) m.props.dest_length 0 0 []
  rw [Nat.zero_add] at h
  rw [h]
  simp only [all_elements_succeed, element_outcome, List.all_eq_true, List.mem_range,
    element_size_eq, Nat.zero_add]
  constructor
  · intro hx j hj
    have := hx j hj
    rwa [Nat.mul_comm] at this
  · intro hx j hj
    have := hx j hj
    rwa [Nat.mul_comm]

/-- A mapping with a failing element sends nothing. -/
theorem receive_signal_mapping_failure (perform : transform_evaluator) (clip : clip_evaluator)
    (router : mapper_router) (sig : mapper_signal) (value : List Nat) (m : mapper_mapping)
    (h : all_elements_succeed perform clip m sig value = false) :
    transmitted (receive_signal_mapping perform clip router sig value m) = [] := by
  have hne : ¬ (receive_signal_for perform clip m sig value (element_size m.props.dest_type)
      m.props.dest_length 0 0 []).1 = m.props.dest_length := by
    intro hc
    rw [← all_elements_succeed_iff, h] at hc
    exact Bool.noConfusion hc
  simp only [receive_signal_mapping, hne, if_false]
  exact receive_signal_for_transmitted _ _ _ _ _ _ _ _ _ _

/-- A router without an endpoint sends nothing. -/
theorem receive_signal_mapping_no_addr (perform : transform_evaluator) (clip : clip_evaluator)
    (router : mapper_router) (sig : mapper_signal) (value : List Nat) (m : mapper_mapping)
    (h : router.addr = none) :
    transmitted (receive_signal_mapping perform clip router sig value m) = [] := by
  simp only [receive_signal_mapping, mapper_router_send_signal, h]
  split_ifs
  · rw [List.append_nil]; exact receive_signal_for_transmitted _ _ _ _ _ _ _ _ _ _
  · exact receive_signal_for_transmitted _ _ _ _ _ _ _ _ _ _

/-- A mapping whose elements all succeed sends one message: to its destination
name, with one argument per element, in index order. -/
theorem receive_signal_mapping_success (perform : transform_evaluator) (clip : clip_evaluator)
    (router : mapper_router) (addr : lo_address) (sig : mapper_signal) (value : List Nat)
    (m : mapper_mapping) (haddr : router.addr = some addr)
    (h : all_elements_succeed perform clip m sig value = true) :
    ∃ msg : lo_message,
      transmitted (receive_signal_mapping perform clip router sig value m)
        = [(addr, m.props.dest_name, msg)]
      ∧ msg.args.map (fun a => some a.val)
          = (List.range m.props.dest_length).map (element_outcome perform clip m sig value)
      ∧ msg.args.map (fun a => a.type) = List.replicate m.props.dest_length m.props.dest_type := by
  have hdone := (all_elements_succeed_iff perform clip m sig value).1 h
  rw [element_size_eq] at hdone
  have happ := receive_signal_for_applied perform clip m sig value
    4 m.props.dest_length 0 0 [] (by rw [Nat.zero_add]; exact hdone)
  simp only [List.map_nil, List.nil_append, Nat.zero_add] at happ
  have hout : (List.range m.props.dest_length).map
        (fun j => (perform m sig value (j * 4)).bind (clip m))
      = (List.range m.props.dest_length).map (element_outcome perform clip m sig value) := by
    apply List.map_congr_left
    intro j _
    simp only [element_outcome, Nat.mul_comm]
  rw [hout] at happ
  have hlen : (receive_signal_for perform clip m sig value 4
      m.props.dest_length 0 0 []).2.1.length = m.props.dest_length := by
    have := congrArg List.length happ
    simpa using this
  refine ⟨send_signal_for
      { name := m.props.dest_name, type := m.props.dest_type, length := m.props.dest_length }
      (receive_signal_for perform clip m sig value 4
        m.props.dest_length 0 0 []).2.1 m.props.dest_length 0 lo_message_new, ?_, ?_, ?_⟩
  · simp only [receive_signal_mapping, element_size_eq, hdone, if_true, mapper_router_send_signal,
      haddr, transmitted_append, receive_signal_for_transmitted, List.nil_append, transmitted]
  · rw [send_signal_for_args, ← happ]
    simp only [lo_message_new, List.nil_append, List.map_map, Nat.zero_add]
    apply List.ext_getElem
    · simp [hlen]
    · intro n h1 h2
      have hn : n < (receive_signal_for perform clip m sig value 4
          m.props.dest_length 0 0 []).2.1.length := by simpa using h2
      simp only [List.getElem_map, List.getElem_range, Function.comp_apply]
      rw [List.getD_eq_getElem?_getD, List.getElem?_eq_getElem hn]
      rfl
  · rw [send_signal_for_args]
    simp only [lo_message_new, List.nil_append, List.map_map]
    apply List.ext_getElem
    · simp
    · intro n h1 h2
      simp

/-! ### The loop over a collection -/

theorem receive_signal_while_append (perform : transform_evaluator) (clip : clip_evaluator)
    (router : mapper_router) (sig : mapper_signal) (value : List Nat)
    (xs ys : List mapper_mapping) :
    receive_signal_while perform clip router sig value (xs ++ ys)
      = receive_signal_while perform clip router sig value xs
        ++ receive_signal_while perform clip router sig value ys := by
  induction xs with
  | nil => rfl
  | cons m rest ih => simp [receive_signal_while, ih]

/-- With an endpoint, the collection sends one message per mapping whose elements
all succeed. -/
theorem receive_signal_while_count (perform : transform_evaluator) (clip : clip_evaluator)
    (router : mapper_router) (addr : lo_address) (sig : mapper_signal) (value : List Nat)
    (haddr : router.addr = some addr) (ms : List mapper_mapping) :
    (transmitted (receive_signal_while perform clip router sig value ms)).length
      = ms.countP (fun m => all_elements_succeed perform clip m sig value) := by
  induction ms with
  | nil => rfl
  | cons m rest ih =>
    rw [receive_signal_while, transmitted_append, List.length_append, ih, List.countP_cons]
    cases h : all_elements_succeed perform clip m sig value with
    | false =>
      rw [receive_signal_mapping_failure perform clip router sig value m h]
      simp
    | true =>
      obtain ⟨msg, hmsg, _, _⟩ :=
        receive_signal_mapping_success perform clip router addr sig value m haddr h
      rw [hmsg]
      simp [Nat.add_comm]

theorem find_signal_mapping_eq_none (l : List mapper_signal_mapping) (sig : Nat) :
    find_signal_mapping l sig = none ↔ ∀ sm ∈ l, sm.signal ≠ sig := by
  induction l with
  | nil => simp [find_signal_mapping]
  | cons sm rest ih =>
    by_cases h : sm.signal = sig
    · simp [find_signal_mapping, h]
    · simp [find_signal_mapping, h, ih]

/-! ### Claims on dispatch -/

/-- C2: if the transform evaluator or the clip evaluator fails at an element index
`i < m.dest_length` of a mapping `m` in the dispatched signal's collection, the
dispatch transmits no message for `m`: the body run for `m` sends nothing, and
what the whole dispatch transmits is what the mappings before `m` and after `m`
transmit. -/
theorem failing_element_sends_nothing (perform : transform_evaluator) (clip : clip_evaluator)
    (router : mapper_router) (sig : mapper_signal) (value : List Nat)
    (sm : mapper_signal_mapping) (pre post : List mapper_mapping) (m : mapper_mapping) (i : Nat)
    (hfind : find_signal_mapping router.mappings sig.addr = some sm)
    (hm : sm.mapping = pre ++ m :: post)
    (hi : i < m.props.dest_length)
    (hfail : perform m sig value (4 * i) = none
      ∨ ∃ v, perform m sig value (4 * i) = some v ∧ clip m v = none) :
    transmitted (receive_signal_mapping perform clip router sig value m) = []
    ∧ transmitted (mapper_router_receive_signal perform clip router sig value).2
        = transmitted (receive_signal_while perform clip router sig value pre)
          ++ transmitted (receive_signal_while perform clip router sig value post) := by
  have hnone : element_outcome perform clip m sig value i = none := by
    unfold element_outcome
    rcases hfail with h | ⟨v, hv, hc⟩
    · rw [h]; rfl
    · rw [hv]; exact hc
  have hall : all_elements_succeed perform clip m sig value = false := by
    cases hb : all_elements_succeed perform clip m sig value with
    | false => rfl
    | true =>
      have := (List.all_eq_true.1 hb) i (List.mem_range.2 hi)
      rw [hnone] at this
      exact Bool.noConfusion this
  have hbody := receive_signal_mapping_failure perform clip router sig value m hall
  refine ⟨hbody, ?_⟩
  simp only [mapper_router_receive_signal, hfind, hm, receive_signal_while_append,
    receive_signal_while, transmitted_append, hbody, List.nil_append]

/-- C3: with a valid endpoint, one dispatch of a mapped signal transmits as many
messages as the signal's collection has mappings for which transform and clip
succeed on all `dest_length` elements; in particular, of two mappings of which one
fails and one succeeds exactly one transmission occurs. -/
theorem transmissions_count_successes (perform : transform_evaluator) (clip : clip_evaluator)
    (router : mapper_router) (addr : lo_address) (sig : mapper_signal) (value : List Nat)
    (sm : mapper_signal_mapping)
    (haddr : router.addr = some addr)
    (hfind : find_signal_mapping router.mappings sig.addr = some sm) :
    (transmitted (mapper_router_receive_signal perform clip router sig value).2).length
        = sm.mapping.countP (fun m => all_elements_succeed perform clip m sig value)
    ∧ ∀ m1 m2 : mapper_mapping, sm.mapping = [m1, m2] →
        all_elements_succeed perform clip m1 sig value
          ≠ all_elements_succeed perform clip m2 sig value →
        (transmitted (mapper_router_receive_signal perform clip router sig value).2).length
          = 1 := by
  have hcount : (transmitted (mapper_router_receive_signal perform clip router sig value).2).length
      = sm.mapping.countP (fun m => all_elements_succeed perform clip m sig value) := by
    simp only [mapper_router_receive_signal, hfind]
    exact receive_signal_while_count perform clip router addr sig value haddr sm.mapping
  refine ⟨hcount, ?_⟩
  intro m1 m2 hms hne
  rw [hcount, hms]
  cases h1 : all_elements_succeed perform clip m1 sig value <;>
    cases h2 : all_elements_succeed perform clip m2 sig value <;>
    simp_all [List.countP_cons]

/-- C4: with a valid endpoint, for a mapping `m` of the dispatched signal whose
elements all succeed, exactly one message is transmitted for `m`: it is addressed
to `m.dest_name` and carries `m.dest_length` arguments, argument `i` being
`clip(m, transform(m, sig, value[i]))` for the 4-byte element `value[i]`, in index
order; it sits in the dispatch between what the mappings before `m` and after `m`
transmit. -/
theorem successful_mapping_message (perform : transform_evaluator) (clip : clip_evaluator)
    (router : mapper_router) (addr : lo_address) (sig : mapper_signal) (value : List Nat)
    (sm : mapper_signal_mapping) (pre post : List mapper_mapping) (m : mapper_mapping)
    (haddr : router.addr = some addr)
    (hfind : find_signal_mapping router.mappings sig.addr = some sm)
    (hm : sm.mapping = pre ++ m :: post)
    (hok : ∀ i, i < m.props.dest_length →
      (element_outcome perform clip m sig value i).isSome = true) :
    ∃ msg : lo_message,
      transmitted (receive_signal_mapping perform clip router sig value m)
        = [(addr, m.props.dest_name, msg)]
      ∧ msg.args.length = m.props.dest_length
      ∧ msg.args.map (fun a => some a.val)
          = (List.range m.props.dest_length).map (element_outcome perform clip m sig value)
      ∧ msg.args.map (fun a => a.type) = List.replicate m.props.dest_length m.props.dest_type
      ∧ transmitted (mapper_router_receive_signal perform clip router sig value).2
          = transmitted (receive_signal_while perform clip router sig value pre)
            ++ (addr, m.props.dest_name, msg)
              :: transmitted (receive_signal_while perform clip router sig value post) := by
  have hall : all_elements_succeed perform clip m sig value = true := by
    unfold all_elements_succeed
    rw [List.all_eq_true]
    intro i hi
    exact hok i (List.mem_range.1 hi)
  obtain ⟨msg, hsend, hvals, htypes⟩ :=
    receive_signal_mapping_success perform clip router addr sig value m haddr hall
  refine ⟨msg, hsend, ?_, hvals, htypes, ?_⟩
  · have := congrArg List.length hvals
    simpa using this
  · simp only [mapper_router_receive_signal, hfind, hm, receive_signal_while_append,
      receive_signal_while, transmitted_append, hsend, List.singleton_append]

/-- C6: a dispatch for a signal that has no entry in the router's list of signal
entries makes no call at all (no transform, no clip, no transmission) and returns
the router as it was. -/
theorem unmapped_signal_is_noop (perform : transform_evaluator) (clip : clip_evaluator)
    (router : mapper_router) (sig : mapper_signal) (value : List Nat)
    (h : ∀ sm ∈ router.mappings, sm.signal ≠ sig.addr) :
    mapper_router_receive_signal perform clip router sig value = (router, []) := by
  have hnone := (find_signal_mapping_eq_none router.mappings sig.addr).2 h
  simp only [mapper_router_receive_signal, hnone]

/-! ### The scenario, evaluated -/

/-- C1 at the scenario: a destination of length 3 for the length-2 signal `S` is
rejected and the router is untouched. -/
theorem add_mapping_returns_iff_lengths_match_witness :
    mapper_router_add_mapping scenario_router scenario_signal
        ['/', 'd', 'e', 's', 't', '/', 'x'] 'f' 3 500 = (none, scenario_router) :=
  (add_mapping_returns_iff_lengths_match scenario_router scenario_signal
    ['/', 'd', 'e', 's', 't', '/', 'x'] 'f' 3 500).2 (by decide)

/-- C2 at the scenario: the clip evaluator fails on element 1 and nothing is sent. -/
theorem failing_element_sends_nothing_witness :
    transmitted (mapper_router_receive_signal scenario_identity
        (scenario_clip_failing 500 float_two) scenario_router_x scenario_signal
        scenario_value).2 = [] :=
  (failing_element_sends_nothing scenario_identity (scenario_clip_failing 500 float_two)
    scenario_router_x scenario_signal scenario_value
    { signal := 100, mapping := [scenario_mapping ['/', 'd', 'e', 's', 't', '/', 'x'] 500] }
    [] [] (scenario_mapping ['/', 'd', 'e', 's', 't', '/', 'x'] 500) 1
    (by decide) (by decide) (by decide)
    (Or.inr ⟨float_two, by decide, by decide⟩)).2

/-- C3 at the scenario: of the two mappings of `S`, the one to `/dest/y` fails in
the clip evaluator and the one to `/dest/x` succeeds; one message is sent. -/
theorem transmissions_count_successes_witness :
    (transmitted (mapper_router_receive_signal scenario_identity
        (scenario_clip_failing 501 float_two) scenario_router_xy scenario_signal
        scenario_value).2).length = 1 :=
  (transmissions_count_successes scenario_identity (scenario_clip_failing 501 float_two)
    scenario_router_xy
    { host := ['l', 'o', 'c', 'a', 'l', 'h', 'o', 's', 't'], port := ['9', '0', '0', '0'] }
    scenario_signal scenario_value
    { signal := 100
      mapping := [scenario_mapping ['/', 'd', 'e', 's', 't', '/', 'y'] 501,
        scenario_mapping ['/', 'd', 'e', 's', 't', '/', 'x'] 500] }
    (by decide) (by decide)).2
    (scenario_mapping ['/', 'd', 'e', 's', 't', '/', 'y'] 501)
    (scenario_mapping ['/', 'd', 'e', 's', 't', '/', 'x'] 500) rfl (by decide)

/-- C4 at the scenario: `[1.0, 2.0]` through the identity transform and no
clipping yields exactly one message, to `/dest/x`, with arguments `[1.0, 2.0]`. -/
theorem successful_mapping_message_witness :
    transmitted (mapper_router_receive_signal scenario_identity scenario_no_clip
        scenario_router_x scenario_signal scenario_value).2
      = [({ host := ['l', 'o', 'c', 'a', 'l', 'h', 'o', 's', 't'], port := ['9', '0', '0', '0'] },
          ['/', 'd', 'e', 's', 't', '/', 'x'],
          { args := [{ type := 'f', val := float_one }, { type := 'f', val := float_two }] })] := by
  obtain ⟨msg, hsend, _, _, _, hall⟩ :=
    successful_mapping_message scenario_identity scenario_no_clip scenario_router_x
      { host := ['l', 'o', 'c', 'a', 'l', 'h', 'o', 's', 't'], port := ['9', '0', '0', '0'] }
      scenario_signal scenario_value
      { signal := 100, mapping := [scenario_mapping ['/', 'd', 'e', 's', 't', '/', 'x'] 500] }
      [] [] (scenario_mapping ['/', 'd', 'e', 's', 't', '/', 'x'] 500)
      (by decide) (by decide) (by decide) (by decide)
  rw [hall]
  exact hsend.symm.trans (by decide)

/-- C6 at the scenario: a dispatch for the unmapped signal `T` makes no call and
leaves the router as it was. -/
theorem unmapped_signal_is_noop_witness :
    mapper_router_receive_signal scenario_identity scenario_no_clip scenario_router_xy
        scenario_other_signal scenario_value = (scenario_router_xy, []) :=
  unmapped_signal_is_noop scenario_identity scenario_no_clip scenario_router_xy
    scenario_other_signal scenario_value (by decide)

/-! ### Adding, then dispatching -/

/-- The entry the search loop stops at is for the signal searched. -/
theorem find_signal_mapping_signal (l : List mapper_signal_mapping) (sig : Nat)
    (sm : mapper_signal_mapping) (h : find_signal_mapping l sig = some sm) : sm.signal = sig := by
  induction l with
  | nil => simp [find_signal_mapping] at h
  | cons x rest ih =>
    by_cases hx : x.signal = sig
    · simp only [find_signal_mapping, hx, ne_eq, not_true_eq_false, if_false, Option.some.injEq] at h
      rw [← h]; exact hx
    · simp only [find_signal_mapping, hx, ne_eq, not_false_eq_true, if_true] at h
      exact ih h

theorem find_link_mapping (l : List mapper_signal_mapping) (sig : Nat) (m : mapper_mapping)
    (sm : mapper_signal_mapping) (h : find_signal_mapping l sig = some sm) :
    find_signal_mapping (link_mapping l sig m) sig
      = some { signal := sm.signal, mapping := m :: sm.mapping } := by
  induction l with
  | nil => simp [find_signal_mapping] at h
  | cons x rest ih =>
    by_cases hx : x.signal = sig
    · simp only [find_signal_mapping, hx, ne_eq, not_true_eq_false, if_false, Option.some.injEq] at h
      simp [link_mapping, find_signal_mapping, hx, ← h]
    · simp only [find_signal_mapping, hx, ne_eq, not_false_eq_true, if_true] at h
      simp [link_mapping, find_signal_mapping, hx, ih h]

theorem add_mapping_addr (router : mapper_router) (sig : mapper_signal)
    (dest_name : List Char) (dest_type : Char) (dest_length : Nat) (block : Nat) :
    (mapper_router_add_mapping router sig dest_name dest_type dest_length block).2.addr
      = router.addr := by
  unfold mapper_router_add_mapping
  split_ifs
  · rfl
  · cases find_signal_mapping router.mappings sig.addr <;> rfl

/-- After a successful add, the signal's entry holds the new mapping followed by
what the signal's collection held before. -/
theorem add_mapping_find (router : mapper_router) (sig : mapper_signal)
    (dest_name : List Char) (dest_type : Char) (dest_length : Nat) (block : Nat)
    (h : sig.props.length = dest_length) :
    ∃ m : mapper_mapping,
      (mapper_router_add_mapping router sig dest_name dest_type dest_length block).1 = some m
      ∧ m.addr = block ∧ m.props.dest_name = dest_name ∧ m.props.dest_type = dest_type
      ∧ m.props.dest_length = dest_length
      ∧ find_signal_mapping
          (mapper_router_add_mapping router sig dest_name dest_type dest_length block).2.mappings
          sig.addr
        = some { signal := sig.addr
                 mapping := m :: (match find_signal_mapping router.mappings sig.addr with
                                  | none => []
                                  | some sm => sm.mapping) } := by
  unfold mapper_router_add_mapping
  simp only [h, ne_eq, not_true_eq_false, if_false]
  cases hf : find_signal_mapping router.mappings sig.addr with
  | none =>
    exact ⟨_, rfl, rfl, rfl, rfl, rfl, by simp [find_signal_mapping]⟩
  | some sm =>
    refine ⟨_, rfl, rfl, rfl, rfl, rfl, ?_⟩
    simp only [find_link_mapping _ _ _ _ hf, find_signal_mapping_signal _ _ _ hf]

theorem receive_signal_mapping_congr (perform : transform_evaluator) (clip : clip_evaluator)
    (r1 r2 : mapper_router) (sig : mapper_signal) (value : List Nat) (m : mapper_mapping)
    (h : r1.addr = r2.addr) :
    receive_signal_mapping perform clip r1 sig value m
      = receive_signal_mapping perform clip r2 sig value m := by
  simp only [receive_signal_mapping, mapper_router_send_signal, h]

theorem receive_signal_while_congr (perform : transform_evaluator) (clip : clip_evaluator)
    (r1 r2 : mapper_router) (sig : mapper_signal) (value : List Nat) (ms : List mapper_mapping)
    (h : r1.addr = r2.addr) :
    receive_signal_while perform clip r1 sig value ms
      = receive_signal_while perform clip r2 sig value ms := by
  induction ms with
  | nil => rfl
  | cons m rest ih =>
    simp only [receive_signal_while, ih, receive_signal_mapping_congr perform clip r1 r2 sig value m h]

/-- What a dispatch makes of the signal's collection, written without the lookup. -/
theorem receive_signal_eq_while (perform : transform_evaluator) (clip : clip_evaluator)
    (router : mapper_router) (sig : mapper_signal) (value : List Nat) :
    (mapper_router_receive_signal perform clip router sig value).2
      = receive_signal_while perform clip router sig value
          (match find_signal_mapping router.mappings sig.addr with
           | none => []
           | some sm => sm.mapping) := by
  unfold mapper_router_receive_signal
  cases find_signal_mapping router.mappings sig.addr <;> rfl

/-- C5: mappings are evaluated most-recently-added-first.  When mapping A and then
mapping B are added to the same signal (lengths matching), a dispatch makes all
the calls for B, then all the calls for A, then the calls for the mappings the
signal had before; so when both succeed, B's message is transmitted before A's. -/
theorem newest_mapping_dispatched_first (perform : transform_evaluator) (clip : clip_evaluator)
    (router : mapper_router) (sig : mapper_signal) (value : List Nat)
    (nameA : List Char) (typeA : Char) (lenA blockA : Nat)
    (nameB : List Char) (typeB : Char) (lenB blockB : Nat)
    (hA : sig.props.length = lenA) (hB : sig.props.length = lenB) :
    ∃ (mA mB : mapper_mapping) (r1 r2 : mapper_router),
      mapper_router_add_mapping router sig nameA typeA lenA blockA = (some mA, r1)
      ∧ mapper_router_add_mapping r1 sig nameB typeB lenB blockB = (some mB, r2)
      ∧ (mapper_router_receive_signal perform clip r2 sig value).2
          = receive_signal_mapping perform clip r2 sig value mB
            ++ receive_signal_mapping perform clip r2 sig value mA
            ++ (mapper_router_receive_signal perform clip router sig value).2
      ∧ ∀ addr : lo_address, router.addr = some addr →
          all_elements_succeed perform clip mA sig value = true →
          all_elements_succeed perform clip mB sig value = true →
          ∃ msgA msgB : lo_message,
            transmitted (mapper_router_receive_signal perform clip r2 sig value).2
              = (addr, nameB, msgB) :: (addr, nameA, msgA)
                  :: transmitted (mapper_router_receive_signal perform clip router sig value).2 := by
  obtain ⟨mA, hmA, _, hnA, _, _, hfA⟩ :=
    add_mapping_find router sig nameA typeA lenA blockA hA
  obtain ⟨mB, hmB, _, hnB, _, _, hfB⟩ :=
    add_mapping_find (mapper_router_add_mapping router sig nameA typeA lenA blockA).2
      sig nameB typeB lenB blockB hB
  have ha1 := add_mapping_addr router sig nameA typeA lenA blockA
  have ha2 := add_mapping_addr (mapper_router_add_mapping router sig nameA typeA lenA blockA).2
    sig nameB typeB lenB blockB
  have htrace : (mapper_router_receive_signal perform clip
        (mapper_router_add_mapping (mapper_router_add_mapping router sig nameA typeA lenA blockA).2
          sig nameB typeB lenB blockB).2 sig value).2
      = receive_signal_mapping perform clip
          (mapper_router_add_mapping (mapper_router_add_mapping router sig nameA typeA lenA blockA).2
            sig nameB typeB lenB blockB).2 sig value mB
        ++ receive_signal_mapping perform clip
          (mapper_router_add_mapping (mapper_router_add_mapping router sig nameA typeA lenA blockA).2
            sig nameB typeB lenB blockB).2 sig value mA
        ++ (mapper_router_receive_signal perform clip router sig value).2 := by
    rw [receive_signal_eq_while, hfB, hfA, receive_signal_eq_while perform clip router]
    simp only [receive_signal_while, List.append_assoc]
    rw [receive_signal_while_congr perform clip _ router sig value _ (ha2.trans ha1)]
  refine ⟨mA, mB, _, _, Prod.ext hmA rfl, Prod.ext hmB rfl, htrace, ?_⟩
  intro addr haddr hsA hsB
  have haddr2 : (mapper_router_add_mapping
      (mapper_router_add_mapping router sig nameA typeA lenA blockA).2
      sig nameB typeB lenB blockB).2.addr = some addr := by rw [ha2, ha1, haddr]
  obtain ⟨msgA, hsendA, _, _⟩ :=
    receive_signal_mapping_success perform clip _ addr sig value mA haddr2 hsA
  obtain ⟨msgB, hsendB, _, _⟩ :=
    receive_signal_mapping_success perform clip _ addr sig value mB haddr2 hsB
  refine ⟨msgA, msgB, ?_⟩
  rw [htrace, transmitted_append, transmitted_append, hsendA, hsendB, hnA, hnB]
  rfl

/-- C5 at the scenario: `S` is mapped to `/dest/x` and then to `/dest/y`; the
dispatch of `[1.0, 2.0]` sends the message to `/dest/y` first, then the one to
`/dest/x`. -/
theorem newest_mapping_dispatched_first_witness :
    (transmitted (mapper_router_receive_signal scenario_identity scenario_no_clip
        scenario_router_xy scenario_signal scenario_value).2).map (fun t => t.2.1)
      = [['/', 'd', 'e', 's', 't', '/', 'y'], ['/', 'd', 'e', 's', 't', '/', 'x']] := by
  obtain ⟨mA, mB, r1, r2, hA, hB, _, hsend⟩ :=
    newest_mapping_dispatched_first scenario_identity scenario_no_clip scenario_router
      scenario_signal scenario_value
      ['/', 'd', 'e', 's', 't', '/', 'x'] 'f' 2 500
      ['/', 'd', 'e', 's', 't', '/', 'y'] 'f' 2 501 (by decide) (by decide)
  have h1 : r1 = scenario_router_x := (congrArg Prod.snd hA).symm
  subst h1
  have h2 : r2 = scenario_router_xy := (congrArg Prod.snd hB).symm
  subst h2
  have hmA : mA = scenario_mapping ['/', 'd', 'e', 's', 't', '/', 'x'] 500 :=
    (Option.some.inj (congrArg Prod.fst hA)).symm
  have hmB : mB = scenario_mapping ['/', 'd', 'e', 's', 't', '/', 'y'] 501 :=
    (Option.some.inj (congrArg Prod.fst hB)).symm
  subst hmA hmB
  obtain ⟨msgA, msgB, hmsg⟩ := hsend _ rfl (by decide) (by decide)
  rw [hmsg]
  rfl

/-! ### Removing a mapping -/

theorem remove_mapping_scan_eq_none (c : List mapper_mapping) (mapping : Nat) :
    remove_mapping_scan c mapping = none ↔ ∀ m ∈ c, m.addr ≠ mapping := by
  induction c with
  | nil => simp [remove_mapping_scan]
  | cons m rest ih =>
    by_cases h : m.addr = mapping
    · simp [remove_mapping_scan, h]
    · simp [remove_mapping_scan, h, ih]

theorem remove_mapping_while_eq_none (l : List mapper_signal_mapping) (mapping : Nat) :
    remove_mapping_while l mapping = none
      ↔ ∀ sm ∈ l, ∀ m ∈ sm.mapping, m.addr ≠ mapping := by
  induction l with
  | nil => simp [remove_mapping_while]
  | cons sm rest ih =>
    cases hs : remove_mapping_scan sm.mapping mapping with
    | none =>
      have := (remove_mapping_scan_eq_none sm.mapping mapping).1 hs
      simp only [remove_mapping_while, hs, Option.map_eq_none', ih, List.mem_cons,
        forall_eq_or_imp]
      exact ⟨fun h => ⟨this, h⟩, fun h => h.2⟩
    | some c =>
      simp only [remove_mapping_while, hs, List.mem_cons, forall_eq_or_imp, false_iff,
        reduceCtorEq]
      intro h
      have := (remove_mapping_scan_eq_none sm.mapping mapping).2 h.1
      rw [hs] at this
      exact Option.noConfusion this

/-- A successful scan of a collection deletes the first mapping at the address
and keeps the others in their order. -/
theorem remove_mapping_scan_eq_some (c : List mapper_mapping) (mapping : Nat)
    (rest : List mapper_mapping) (h : remove_mapping_scan c mapping = some rest) :
    ∃ (c1 : List mapper_mapping) (m : mapper_mapping) (c2 : List mapper_mapping),
      c = c1 ++ m :: c2 ∧ m.addr = mapping ∧ (∀ x ∈ c1, x.addr ≠ mapping)
      ∧ rest = c1 ++ c2 := by
  induction c generalizing rest with
  | nil => simp [remove_mapping_scan] at h
  | cons x xs ih =>
    by_cases hx : x.addr = mapping
    · simp only [remove_mapping_scan, hx, if_true, Option.some.injEq] at h
      exact ⟨[], x, xs, rfl, hx, by simp, by simp [h]⟩
    · simp only [remove_mapping_scan, hx, if_false, Option.map_eq_some'] at h
      obtain ⟨r, hr, hrest⟩ := h
      obtain ⟨c1, m, c2, hc, hm, hc1, hr2⟩ := ih r hr
      refine ⟨x :: c1, m, c2, by simp [hc], hm, ?_, by simp [← hrest, hr2]⟩
      intro y hy
      rcases List.mem_cons.1 hy with rfl | hy
      · exact hx
      · exact hc1 y hy

/-- A successful walk of the entries changes one entry only: the first that holds
a mapping at the address. -/
theorem remove_mapping_while_eq_some (l : List mapper_signal_mapping) (mapping : Nat)
    (entries : List mapper_signal_mapping) (h : remove_mapping_while l mapping = some entries) :
    ∃ (pre : List mapper_signal_mapping) (sm : mapper_signal_mapping)
      (post : List mapper_signal_mapping)
      (c1 : List mapper_mapping) (m : mapper_mapping) (c2 : List mapper_mapping),
      l = pre ++ sm :: post ∧ sm.mapping = c1 ++ m :: c2 ∧ m.addr = mapping
      ∧ (∀ e ∈ pre, ∀ x ∈ e.mapping, x.addr ≠ mapping) ∧ (∀ x ∈ c1, x.addr ≠ mapping)
      ∧ entries = pre ++ { signal := sm.signal, mapping := c1 ++ c2 } :: post := by
  induction l generalizing entries with
  | nil => simp [remove_mapping_while] at h
  | cons e es ih =>
    cases hs : remove_mapping_scan e.mapping mapping with
    | some rest =>
      simp only [remove_mapping_while, hs, Option.some.injEq] at h
      obtain ⟨c1, m, c2, hc, hm, hc1, hr⟩ := remove_mapping_scan_eq_some _ _ _ hs
      exact ⟨[], e, es, c1, m, c2, rfl, hc, hm, by simp, hc1, by simp [← h, hr]⟩
    | none =>
      simp only [remove_mapping_while, hs, Option.map_eq_some'] at h
      obtain ⟨r, hr, hentries⟩ := h
      obtain ⟨pre, sm, post, c1, m, c2, hl, hc, hm, hpre, hc1, hr2⟩ := ih r hr
      refine ⟨e :: pre, sm, post, c1, m, c2, by simp [hl], hc, hm, ?_, hc1,
        by simp [← hentries, hr2]⟩
      intro y hy
      rcases List.mem_cons.1 hy with rfl | hy
      · exact (remove_mapping_scan_eq_none _ _).1 hs
      · exact hpre y hy

/-- C7: for a mapping that is not (by identity) in any collection of the router,
`mapper_router_remove_mapping` returns 1 and the router, with its list of signal
entries and every collection, is unchanged. -/
theorem remove_absent_mapping (router : mapper_router) (mapping : mapper_mapping)
    (h : ∀ sm ∈ router.mappings, ∀ m ∈ sm.mapping, m.addr ≠ mapping.addr) :
    mapper_router_remove_mapping router mapping = (1, router) := by
  have hnone := (remove_mapping_while_eq_none router.mappings mapping.addr).2 h
  simp only [mapper_router_remove_mapping, hnone]

/-- C7 at the scenario: removing a mapping at address 999, which the router does
not hold, returns 1 and changes nothing. -/
theorem remove_absent_mapping_witness :
    mapper_router_remove_mapping scenario_router_xy
        (scenario_mapping ['/', 'd', 'e', 's', 't', '/', 'x'] 999)
      = (1, scenario_router_xy) :=
  remove_absent_mapping scenario_router_xy
    (scenario_mapping ['/', 'd', 'e', 's', 't', '/', 'x'] 999) (by decide)

/-- C8: for a mapping present (by identity) in one of the router's collections,
`mapper_router_remove_mapping` returns 0; afterwards the collection that held it
(the first to hold it, at its first occurrence) is its previous contents with the
mapping deleted and the others in their order, and every other signal entry and
collection is unchanged. -/
theorem remove_present_mapping (router : mapper_router) (mapping : mapper_mapping)
    (h : ∃ sm ∈ router.mappings, ∃ m ∈ sm.mapping, m.addr = mapping.addr) :
    (mapper_router_remove_mapping router mapping).1 = 0
    ∧ ∃ (pre : List mapper_signal_mapping) (sm : mapper_signal_mapping)
        (post : List mapper_signal_mapping)
        (c1 : List mapper_mapping) (m : mapper_mapping) (c2 : List mapper_mapping),
        router.mappings = pre ++ sm :: post
        ∧ sm.mapping = c1 ++ m :: c2
        ∧ m.addr = mapping.addr
        ∧ (∀ e ∈ pre, ∀ x ∈ e.mapping, x.addr ≠ mapping.addr)
        ∧ (∀ x ∈ c1, x.addr ≠ mapping.addr)
        ∧ (mapper_router_remove_mapping router mapping).2
            = { addr := router.addr
                dest_name := router.dest_name
                device := router.device
                mappings := pre ++ { signal := sm.signal, mapping := c1 ++ c2 } :: post } := by
  cases hw : remove_mapping_while router.mappings mapping.addr with
  | none =>
    exfalso
    obtain ⟨sm, hsm, m, hm, hma⟩ := h
    exact (remove_mapping_while_eq_none _ _).1 hw sm hsm m hm hma
  | some entries =>
    obtain ⟨pre, sm, post, c1, m, c2, hl, hc, hm, hpre, hc1, he⟩ :=
      remove_mapping_while_eq_some _ _ _ hw
    refine ⟨by simp [mapper_router_remove_mapping, hw], pre, sm, post, c1, m, c2, hl, hc, hm,
      hpre, hc1, ?_⟩
    simp [mapper_router_remove_mapping, hw, he]

/-- C8 at the scenario: removing the mapping to `/dest/x` from the router that
maps `S` to `/dest/y` and `/dest/x` returns 0 and leaves the one to `/dest/y`. -/
theorem remove_present_mapping_witness :
    (mapper_router_remove_mapping scenario_router_xy
        (scenario_mapping ['/', 'd', 'e', 's', 't', '/', 'x'] 500)).1 = 0
    ∧ (mapper_router_remove_mapping scenario_router_xy
        (scenario_mapping ['/', 'd', 'e', 's', 't', '/', 'x'] 500)).2.mappings
      = [{ signal := 100, mapping := [scenario_mapping ['/', 'd', 'e', 's', 't', '/', 'y'] 501] }] :=
  ⟨(remove_present_mapping scenario_router_xy
      (scenario_mapping ['/', 'd', 'e', 's', 't', '/', 'x'] 500) (by decide)).1, by decide⟩

/-! ### Lookup by destination name -/

theorem strncmp_eq_zero_iff (s1 s2 : List Char) (n : Nat) :
    strncmp s1 s2 n = 0 ↔ s1.take n = s2.take n := by
  induction n generalizing s1 s2 with
  | zero => simp [strncmp]
  | succ n ih =>
    cases s1 with
    | nil => cases s2 <;> simp [strncmp]
    | cons c1 t1 =>
      cases s2 with
      | nil => simp [strncmp]
      | cons c2 t2 =>
        by_cases hc : c1 = c2
        · simp [strncmp, hc, ih]
        · simp only [strncmp, hc, if_false, List.take_succ_cons, List.cons.injEq, false_and,
            iff_false]
          split_ifs <;> decide

theorem strchr_take (t : List Char) :
    t.take (match strchr t '/' with
            | some k => k
            | none => t.length) = t.takeWhile (fun c => c != '/') := by
  induction t with
  | nil => simp [strchr]
  | cons x rest ih =>
    by_cases hx : x = '/'
    · simp [strchr, hx]
    · cases hs : strchr rest '/' with
      | none => rw [hs] at ih; simpa [strchr, hx, hs] using ih
      | some k => rw [hs] at ih; simpa [strchr, hx, hs] using ih

theorem strchr_lt (t : List Char) (k : Nat) (h : strchr t '/' = some k) : k < t.length := by
  induction t generalizing k with
  | nil => simp [strchr] at h
  | cons x rest ih =>
    by_cases hx : x = '/'
    · simp only [strchr, hx, if_true, Option.some.injEq] at h
      simp [← h]
    · simp only [strchr, hx, if_false, Option.map_eq_some'] at h
      obtain ⟨j, hj, hk⟩ := h
      have := ih j hj
      simp only [List.length_cons]
      omega

theorem compare_length_cons_le (c : Char) (t after : List Char) :
    compare_length (c :: t) after ≤ (c :: t).length := by
  unfold compare_length strlen
  simp only [List.length_cons]
  cases hs : strchr t '/' with
  | none => exact Nat.le_refl _
  | some k =>
    have := strchr_lt _ _ hs
    simp only
    omega

/-- The characters the lookup compares: the first character of the name and what
follows it up to the next `'/'`. -/
theorem take_compare_length_cons (c : Char) (t after : List Char) :
    (c :: t).take (compare_length (c :: t) after) = compared_text (c :: t) := by
  have h := strchr_take t
  unfold compare_length strlen compared_text
  cases hs : strchr t '/' with
  | none => rw [hs] at h; simpa using h
  | some k => rw [hs] at h; simpa using h

/-- The loop returns the first router of the list whose name begins with the
compared characters of the lookup name. -/
theorem find_by_dest_name_while_eq_find (registry : List mapper_router) (name : List Char)
    (n : Nat) (hn : n ≤ name.length) :
    find_by_dest_name_while registry name n
      = registry.find? (fun r => (name.take n).isPrefixOf r.dest_name) := by
  induction registry with
  | nil => rfl
  | cons r rest ih =>
    have hiff : strncmp r.dest_name name n = 0 ↔ (name.take n).isPrefixOf r.dest_name = true := by
      rw [strncmp_eq_zero_iff, List.isPrefixOf_iff_prefix, List.prefix_iff_eq_take,
        List.length_take, Nat.min_eq_left hn]
      exact eq_comm
    by_cases hr : strncmp r.dest_name name n = 0
    · simp [find_by_dest_name_while, hr, List.find?_cons, hiff.1 hr]
    · have hp : (name.take n).isPrefixOf r.dest_name = false := by
        cases hb : (name.take n).isPrefixOf r.dest_name with
        | false => rfl
        | true => exact absurd (hiff.2 hb) hr
      simp [find_by_dest_name_while, hr, List.find?_cons, hp, ih]

/-- For a lookup name that is not empty, the function returns the first router of
the list whose destination name begins with the compared text of the name. -/
theorem find_by_dest_name_eq_find (registry : List mapper_router) (c : Char)
    (t after : List Char) :
    mapper_router_find_by_dest_name registry (c :: t) after
      = registry.find? (fun r => (compared_text (c :: t)).isPrefixOf r.dest_name) := by
  unfold mapper_router_find_by_dest_name
  rw [find_by_dest_name_while_eq_find _ _ _ (compare_length_cons_le c t after),
    take_compare_length_cons]

/-- The empty lookup name: the search for `'/'` runs behind the terminator.  With
`/s` stored there the function compares one character and returns null for a
registry without a router of empty name; with a NUL there it compares none and
returns the head of the list. -/
theorem find_by_dest_name_empty_name :
    mapper_router_find_by_dest_name [registry_router ['/', 's', 'y', 'n', 't', 'h', '1'] 1]
        [] ['/', 's'] = none
    ∧ mapper_router_find_by_dest_name [registry_router ['/', 's', 'y', 'n', 't', 'h', '1'] 1]
        [] [] = some (registry_router ['/', 's', 'y', 'n', 't', 'h', '1'] 1) := by
  decide

/-- C10, the code at the failing input: in a registry that holds the routers
created as `/synth10` and as `/synth1`, the lookup of `/synth1/freq` returns the
router `/synth10`, whose first path segment `synth10` is not the lookup name's
`synth1`, whatever is stored behind the lookup name. -/
theorem find_by_dest_name_other_segment :
    (∀ after : List Char,
      mapper_router_find_by_dest_name
          [registry_router ['/', 's', 'y', 'n', 't', 'h', '1', '0'] 1,
            registry_router ['/', 's', 'y', 'n', 't', 'h', '1'] 2]
          ['/', 's', 'y', 'n', 't', 'h', '1', '/', 'f', 'r', 'e', 'q'] after
        = some (registry_router ['/', 's', 'y', 'n', 't', 'h', '1', '0'] 1))
    ∧ segment_after_leading_slash ['/', 's', 'y', 'n', 't', 'h', '1', '0']
        = ['s', 'y', 'n', 't', 'h', '1', '0']
    ∧ segment_after_leading_slash ['/', 's', 'y', 'n', 't', 'h', '1', '/', 'f', 'r', 'e', 'q']
        = ['s', 'y', 'n', 't', 'h', '1']
    ∧ segment_after_leading_slash ['/', 's', 'y', 'n', 't', 'h', '1', '0']
        ≠ segment_after_leading_slash
            ['/', 's', 'y', 'n', 't', 'h', '1', '/', 'f', 'r', 'e', 'q'] := by
  refine ⟨fun after => ?_, by decide, by decide, by decide⟩
  rw [find_by_dest_name_eq_find]
  decide

/-! ### Queries -/

theorem array_string_map_some (s : List Char) (rest : List (Option Char)) :
    array_string (s.map some ++ none :: rest) = some s := by
  induction s with
  | nil => rfl
  | cons c t ih => simp [array_string, ih]

theorem array_string_all_some (s : List Char) : array_string (s.map some) = none := by
  induction s with
  | nil => rfl
  | cons c t ih => simp [array_string, ih]

theorem strncpy_short (dst : List (Option Char)) (src : List Char) (n : Nat)
    (h : src.length < n) (hd : dst.length ≤ n) :
    strncpy dst src n = src.map some ++ none :: List.replicate (n - 1 - src.length) none := by
  have e : n - src.length = (n - 1 - src.length) + 1 := by omega
  unfold strncpy
  rw [List.take_of_length_le (by omega), e, List.replicate_succ, List.drop_eq_nil_of_le hd,
    List.append_nil]

theorem strncpy_long (dst : List (Option Char)) (src : List Char) (n : Nat)
    (h : n ≤ src.length) (hd : dst.length ≤ n) :
    strncpy dst src n = (src.take n).map some := by
  have e : n - src.length = 0 := by omega
  unfold strncpy
  rw [e, List.drop_eq_nil_of_le hd, List.replicate_zero, List.append_nil, List.append_nil]

theorem strncat_fits (dst : List (Option Char)) (s src : List Char) (n : Nat)
    (h : array_string dst = some s) (hfit : (s ++ src.take n).length + 1 ≤ dst.length) :
    (strncat dst src n).bind array_string = some (s ++ src.take n) := by
  simp only [strncat, h, if_pos hfit, Option.bind, array_string_map_some]

theorem strncat_overrun (dst : List (Option Char)) (s src : List Char) (n : Nat)
    (h : array_string dst = some s) (hfit : ¬ (s ++ src.take n).length + 1 ≤ dst.length) :
    strncat dst src n = none := by
  simp only [strncat, h, if_neg hfit]

theorem strncat_no_string (dst : List (Option Char)) (src : List Char) (n : Nat)
    (h : array_string dst = none) : strncat dst src n = none := by
  simp only [strncat, h]

/-- A destination name of at most 1019 characters fits `query_string` with its
suffix: the address is the name followed by `/get`. -/
theorem query_string_fits (dest_name : List Char) (h : dest_name.length ≤ 1019) :
    query_string dest_name = some (dest_name ++ ['/', 'g', 'e', 't']) := by
  have hd : (List.replicate 1024 (none : Option Char)).length ≤ 1024 :=
    Nat.le_of_eq (List.length_replicate _ _)
  have hcpy := strncpy_short (List.replicate 1024 none) dest_name 1024 (by omega) hd
  have hsuffix : List.take 1024 ['/', 'g', 'e', 't'] = ['/', 'g', 'e', 't'] := rfl
  unfold query_string
  rw [hcpy, strncat_fits _ dest_name _ _ (array_string_map_some _ _), hsuffix]
  rw [hsuffix]
  simp only [List.length_append, List.length_map, List.length_cons, List.length_replicate,
    List.length_nil]
  omega

/-- A longer destination name overruns `query_string`. -/
theorem query_string_overrun (dest_name : List Char) (h : 1019 < dest_name.length) :
    query_string dest_name = none := by
  have hd : (List.replicate 1024 (none : Option Char)).length ≤ 1024 :=
    Nat.le_of_eq (List.length_replicate _ _)
  have hsuffix : List.take 1024 ['/', 'g', 'e', 't'] = ['/', 'g', 'e', 't'] := rfl
  unfold query_string
  by_cases hl : dest_name.length < 1024
  · have hcpy := strncpy_short (List.replicate 1024 none) dest_name 1024 hl hd
    rw [hcpy, strncat_overrun _ dest_name _ _ (array_string_map_some _ _)]
    · rfl
    · rw [hsuffix]
      simp only [List.length_append, List.length_map, List.length_cons, List.length_replicate,
        List.length_nil]
      omega
  · have hcpy := strncpy_long (List.replicate 1024 none) dest_name 1024 (by omega) hd
    rw [hcpy, strncat_no_string _ _ _ (array_string_all_some _)]
    rfl

/-- While every destination name fits the array, the loop counts the mappings and
sends one query for each, addressed to the name followed by `/get`. -/
theorem send_query_while_fits (router : mapper_router) (alias_arg : Option (List Char))
    (ms : List mapper_mapping) (count : Nat)
    (hfit : ∀ m ∈ ms, m.props.dest_name.length ≤ 1019) :
    send_query_while router alias_arg ms count
      = some (count + ms.length,
          ms.map (fun m =>
            send_query_message router alias_arg (m.props.dest_name ++ ['/', 'g', 'e', 't']))) := by
  induction ms generalizing count with
  | nil => rfl
  | cons m rest ih =>
    have hm := query_string_fits _ (hfit m (List.mem_cons_self _ _))
    have hrest := ih (count + 1) (fun x hx => hfit x (List.mem_cons_of_mem _ hx))
    simp only [send_query_while, hm, hrest, Option.map_some', List.length_cons, List.map_cons,
      Option.some.injEq, Prod.mk.injEq, and_true]
    omega

/-- A destination name that does not fit the array leaves the call undefined. -/
theorem send_query_while_overrun (router : mapper_router) (alias_arg : Option (List Char))
    (ms : List mapper_mapping) (count : Nat)
    (h : ∃ m ∈ ms, 1019 < m.props.dest_name.length) :
    send_query_while router alias_arg ms count = none := by
  induction ms generalizing count with
  | nil => simp at h
  | cons m rest ih =>
    cases hq : query_string m.props.dest_name with
    | none => simp only [send_query_while, hq]
    | some path =>
      have hrest : ∃ x ∈ rest, 1019 < x.props.dest_name.length := by
        obtain ⟨x, hx, hlen⟩ := h
        rcases List.mem_cons.1 hx with rfl | hx
        · rw [query_string_overrun _ hlen] at hq
          exact Option.noConfusion hq
        · exact ⟨x, hx, hlen⟩
      simp only [send_query_while, hq, ih (count + 1) hrest, Option.map_none']

theorem scenario_long_name_length : 1019 < scenario_long_name.length := by
  simp only [scenario_long_name, List.length_cons, List.length_replicate]
  omega

/-- C11, the code at the failing input: for the router that maps `S` to a
destination name of 2000 characters, `mapper_router_send_query` overruns
`char query_string[1024]` and its behaviour is undefined; no count is returned
and no query is known to be sent, and so it is whenever a name of the signal's
collection has 1020 characters or more.  Where the array is not overrun the
count is right: 0 and nothing sent for a signal without entry, and otherwise the
number of mappings with one query for each, two for the two mappings of `S` to
`/dest/x`. -/
theorem send_query_count_overrun :
    mapper_router_send_query scenario_router_long scenario_signal (some scenario_alias) = none
    ∧ (∀ (router : mapper_router) (sig : mapper_signal) (alias_arg : Option (List Char))
        (sm : mapper_signal_mapping),
        find_signal_mapping router.mappings sig.addr = some sm →
        (∃ m ∈ sm.mapping, 1019 < m.props.dest_name.length) →
        mapper_router_send_query router sig alias_arg = none)
    ∧ (∀ (router : mapper_router) (sig : mapper_signal) (alias_arg : Option (List Char)),
        (∀ sm ∈ router.mappings, sm.signal ≠ sig.addr) →
        mapper_router_send_query router sig alias_arg = some (0, []))
    ∧ (∀ (router : mapper_router) (sig : mapper_signal) (alias_arg : Option (List Char))
        (sm : mapper_signal_mapping),
        find_signal_mapping router.mappings sig.addr = some sm →
        (∀ m ∈ sm.mapping, m.props.dest_name.length ≤ 1019) →
        ∃ queries : List lo_send_from_call,
          mapper_router_send_query router sig alias_arg = some (sm.mapping.length, queries)
          ∧ queries.length = sm.mapping.length)
    ∧ (mapper_router_send_query scenario_router_xx scenario_signal
        (some scenario_alias)).map (fun r => (r.1, r.2.length)) = some (2, 2) := by
  have hover : ∀ (router : mapper_router) (sig : mapper_signal)
      (alias_arg : Option (List Char)) (sm : mapper_signal_mapping),
      find_signal_mapping router.mappings sig.addr = some sm →
      (∃ m ∈ sm.mapping, 1019 < m.props.dest_name.length) →
      mapper_router_send_query router sig alias_arg = none := by
    intro router sig alias_arg sm hfind h
    simp only [mapper_router_send_query, hfind]
    exact send_query_while_overrun router alias_arg sm.mapping 0 h
  have hfits : ∀ (router : mapper_router) (sig : mapper_signal)
      (alias_arg : Option (List Char)) (sm : mapper_signal_mapping),
      find_signal_mapping router.mappings sig.addr = some sm →
      (∀ m ∈ sm.mapping, m.props.dest_name.length ≤ 1019) →
      ∃ queries : List lo_send_from_call,
        mapper_router_send_query router sig alias_arg = some (sm.mapping.length, queries)
        ∧ queries.length = sm.mapping.length := by
    intro router sig alias_arg sm hfind h
    refine ⟨sm.mapping.map (fun m =>
      send_query_message router alias_arg (m.props.dest_name ++ ['/', 'g', 'e', 't'])), ?_, ?_⟩
    · simp only [mapper_router_send_query, hfind]
      rw [send_query_while_fits router alias_arg sm.mapping 0 h, Nat.zero_add]
    · simp
  refine ⟨?_, hover, ?_, hfits, ?_⟩
  · exact hover scenario_router_long scenario_signal (some scenario_alias)
      { signal := 100
        mapping := [{ addr := 502, props := (scenario_mapping scenario_long_name 502).props }] }
      rfl ⟨_, List.mem_cons_self _ _, scenario_long_name_length⟩
  · intro router sig alias_arg h
    have hnone := (find_signal_mapping_eq_none router.mappings sig.addr).2 h
    simp only [mapper_router_send_query, hnone]
  · obtain ⟨queries, hq, hlen⟩ := hfits scenario_router_xx scenario_signal (some scenario_alias)
      { signal := 100
        mapping := [scenario_mapping ['/', 'd', 'e', 's', 't', '/', 'x'] 503,
          scenario_mapping ['/', 'd', 'e', 's', 't', '/', 'x'] 500] } (by decide) (by decide)
    rw [hq]
    simp only [Option.map_some', hlen]
    rfl

/-- C12, the code at the failing input: for the router that maps `S` to a
destination name of 2000 characters, `strncpy` copies the first 1024 characters
into `char query_string[1024]` and leaves no NUL, `strncat` runs past the array,
and no query addressed to the name followed by `/get` is known to be sent; the
same holds for the query to `/dest/x` of a collection that reaches the long name
in the same call.  Where every name of the collection has at most 1019
characters, each query is addressed to its mapping's destination name followed by
`/get`, from the router's device to the router's endpoint, with the alias as its
single string argument when one is given and no argument otherwise; the mapping
to `/dest/x` with alias `tag42` yields one query to `/dest/x/get` with argument
`tag42`. -/
theorem send_query_address_overrun :
    mapper_router_send_query scenario_router_long scenario_signal (some scenario_alias) = none
    ∧ mapper_router_send_query scenario_router_x_long scenario_signal (some scenario_alias)
        = none
    ∧ (∀ (router : mapper_router) (sig : mapper_signal) (alias_arg : Option (List Char))
        (sm : mapper_signal_mapping),
        find_signal_mapping router.mappings sig.addr = some sm →
        (∀ m ∈ sm.mapping, m.props.dest_name.length ≤ 1019) →
        mapper_router_send_query router sig alias_arg
          = some (sm.mapping.length,
              sm.mapping.map (fun m =>
                { addr := router.addr
                  device := router.device
                  path := m.props.dest_name ++ ['/', 'g', 'e', 't']
                  types := (match alias_arg with
                            | some _ => ['s']
                            | none => [])
                  args := alias_arg.toList })))
    ∧ mapper_router_send_query scenario_router_x scenario_signal (some scenario_alias)
        = some (1, [{ addr := scenario_router.addr
                      device := 1
                      path := ['/', 'd', 'e', 's', 't', '/', 'x', '/', 'g', 'e', 't']
                      types := ['s']
                      args := [['t', 'a', 'g', '4', '2']] }]) := by
  have hfits : ∀ (router : mapper_router) (sig : mapper_signal)
      (alias_arg : Option (List Char)) (sm : mapper_signal_mapping),
      find_signal_mapping router.mappings sig.addr = some sm →
      (∀ m ∈ sm.mapping, m.props.dest_name.length ≤ 1019) →
      mapper_router_send_query router sig alias_arg
        = some (sm.mapping.length,
            sm.mapping.map (fun m =>
              { addr := router.addr
                device := router.device
                path := m.props.dest_name ++ ['/', 'g', 'e', 't']
                types := (match alias_arg with
                          | some _ => ['s']
                          | none => [])
                args := alias_arg.toList })) := by
    intro router sig alias_arg sm hfind h
    simp only [mapper_router_send_query, hfind]
    rw [send_query_while_fits router alias_arg sm.mapping 0 h, Nat.zero_add]
    cases alias_arg <;> rfl
  refine ⟨?_, ?_, hfits, ?_⟩
  · have hfind : find_signal_mapping scenario_router_long.mappings scenario_signal.addr
        = some { signal := 100
                 mapping := [{ addr := 502
                               props := (scenario_mapping scenario_long_name 502).props }] } :=
      rfl
    simp only [mapper_router_send_query, hfind]
    exact send_query_while_overrun _ _ _ 0
      ⟨_, List.mem_cons_self _ _, scenario_long_name_length⟩
  · have hfind : find_signal_mapping scenario_router_x_long.mappings scenario_signal.addr
        = some { signal := 100
                 mapping := [scenario_mapping ['/', 'd', 'e', 's', 't', '/', 'x'] 500,
                   { addr := 502, props := (scenario_mapping scenario_long_name 502).props }] } :=
      rfl
    simp only [mapper_router_send_query, hfind]
    exact send_query_while_overrun _ _ _ 0
      ⟨_, List.mem_cons_of_mem _ (List.mem_cons_self _ _), scenario_long_name_length⟩
  · rw [hfits scenario_router_x scenario_signal (some scenario_alias)
      { signal := 100, mapping := [scenario_mapping ['/', 'd', 'e', 's', 't', '/', 'x'] 500] }
      (by decide) (by decide)]
    rfl

/-! ### Teardown and construction -/

/-- The loop over a collection that is not empty ends in the null dereference. -/
theorem free_mapping_while_cons (m : mapper_mapping) (next : List mapper_mapping) :
    free_mapping_while (m :: next) = none := by
  induction next generalizing m with
  | nil => rfl
  | cons tmp rest ih =>
    show (free_mapping_while (tmp :: rest)).map _ = none
    rw [ih tmp]
    rfl

theorem free_signal_mapping_while_fault (l : List mapper_signal_mapping)
    (h : ∃ sm ∈ l, sm.mapping ≠ []) : free_signal_mapping_while l = none := by
  induction l with
  | nil => simp at h
  | cons sm rest ih =>
    cases hc : sm.mapping with
    | cons m next => simp only [free_signal_mapping_while, hc, free_mapping_while_cons]
    | nil =>
      have hrest : ∃ e ∈ rest, e.mapping ≠ [] := by
        obtain ⟨e, he, hne⟩ := h
        rcases List.mem_cons.1 he with rfl | he
        · exact absurd hc hne
        · exact ⟨e, he, hne⟩
      simp only [free_signal_mapping_while, hc, free_mapping_while, ih hrest, Option.map_none']

/-- C13, the code at the failing input: for the router of the scenario that owns
one signal entry holding one mapping, `mapper_router_free` does not run to
completion; it dereferences the null `tmp` at router.c:43.  The same happens for
every router that owns an entry holding a mapping. -/
theorem router_free_null_dereference :
    mapper_router_free (some scenario_router_x) = none
    ∧ ∀ router : mapper_router, (∃ sm ∈ router.mappings, sm.mapping ≠ []) →
        mapper_router_free (some router) = none := by
  refine ⟨by decide, ?_⟩
  intro router h
  simp only [mapper_router_free, free_signal_mapping_while_fault _ h, Option.map_none']

/-- C14: a successful `mapper_router_add_mapping` returns a mapping whose source
name, type and length are those of the signal, whose destination name, type and
length are the arguments, and whose other properties are the defaults: mode
undefined, expression `y=x`, no clipping at either end, not muted. -/
theorem add_mapping_defaults (router : mapper_router) (sig : mapper_signal)
    (dest_name : List Char) (dest_type : Char) (dest_length : Nat) (block : Nat)
    (h : sig.props.length = dest_length) :
    (mapper_router_add_mapping router sig dest_name dest_type dest_length block).1
      = some { addr := block
               props :=
                 { src_name := sig.props.name
                   src_type := sig.props.type
                   src_length := sig.props.length
                   dest_name := dest_name
                   dest_type := dest_type
                   dest_length := dest_length
                   mode := mapper_mode_type.MO_UNDEFINED
                   expression := ['y', '=', 'x']
                   clip_min := mapper_clipping_type.CT_NONE
                   clip_max := mapper_clipping_type.CT_NONE
                   muted := 0 } } := by
  unfold mapper_router_add_mapping
  simp only [h, ne_eq, not_true_eq_false, if_false]
  cases find_signal_mapping router.mappings sig.addr <;> rfl

/-- C14 at the scenario: the mapping of `S` to `/dest/x`. -/
theorem add_mapping_defaults_witness :
    (mapper_router_add_mapping scenario_router scenario_signal
        ['/', 'd', 'e', 's', 't', '/', 'x'] 'f' 2 500).1
      = some (scenario_mapping ['/', 'd', 'e', 's', 't', '/', 'x'] 500) :=
  add_mapping_defaults scenario_router scenario_signal
    ['/', 'd', 'e', 's', 't', '/', 'x'] 'f' 2 500 (by decide)

/-- C15: `mapper_router_new` returns a router exactly when the endpoint resolution
for the host and the printed port succeeds.  On success the router holds the
resolved endpoint, the given destination name and device and an empty list of
signal entries, and nothing is released; on failure the result is null and the
router block has been released. -/
theorem router_new_iff_resolved
    (lo_address_new : List Char → List Char → Option lo_address)
    (device : Nat) (host : List Char) (port : Int) (name : List Char) :
    ((∃ router released, mapper_router_new lo_address_new device host port name
          = some (some router, released))
        ↔ (lo_address_new host (sprintf_d port)).isSome = true)
    ∧ (∀ addr, lo_address_new host (sprintf_d port) = some addr →
        mapper_router_new lo_address_new device host port name
          = some (some { addr := some addr, dest_name := name, device := device, mappings := [] },
              []))
    ∧ (lo_address_new host (sprintf_d port) = none →
        mapper_router_new lo_address_new device host port name
          = some (none, [released.router])) := by
  cases hr : lo_address_new host (sprintf_d port) with
  | none =>
    have hnew : mapper_router_new lo_address_new device host port name
        = some (none, [released.router]) := by
      simp [mapper_router_new, hr, mapper_router_free, free_signal_mapping_while]
    refine ⟨?_, ?_, fun _ => hnew⟩
    · simp [hnew]
    · intro addr h; exact Option.noConfusion h
  | some a =>
    have hnew : mapper_router_new lo_address_new device host port name
        = some (some { addr := some a, dest_name := name, device := device, mappings := [] },
            []) := by
      simp [mapper_router_new, hr]
    refine ⟨?_, ?_, fun h => Option.noConfusion h⟩
    · simp [hnew]
    · intro addr h
      rw [hnew, Option.some.inj h]

/-- C15 at the scenario: the router to `("localhost", 9000, "/dest")` is created,
and for a host that does not resolve the result is null with the block released. -/
theorem router_new_iff_resolved_witness :
    mapper_router_new scenario_lo_address_new 1
        ['l', 'o', 'c', 'a', 'l', 'h', 'o', 's', 't'] 9000 ['/', 'd', 'e', 's', 't']
      = some (some scenario_router, [])
    ∧ mapper_router_new scenario_lo_address_new 1 ['n', 'o', 'h', 'o', 's', 't'] 9000
        ['/', 'd', 'e', 's', 't']
      = some (none, [released.router]) :=
  ⟨(router_new_iff_resolved scenario_lo_address_new 1
      ['l', 'o', 'c', 'a', 'l', 'h', 'o', 's', 't'] 9000 ['/', 'd', 'e', 's', 't']).2.1
      { host := ['l', 'o', 'c', 'a', 'l', 'h', 'o', 's', 't'], port := ['9', '0', '0', '0'] }
      (by decide),
    (router_new_iff_resolved scenario_lo_address_new 1 ['n', 'o', 'h', 'o', 's', 't'] 9000
      ['/', 'd', 'e', 's', 't']).2.2 (by decide)⟩

/-! ### The list of signal entries under add and remove -/

theorem link_mapping_signals (l : List mapper_signal_mapping) (sig : Nat) (m : mapper_mapping) :
    (link_mapping l sig m).map (fun sm => sm.signal) = l.map (fun sm => sm.signal) := by
  induction l with
  | nil => rfl
  | cons x rest ih =>
    by_cases hx : x.signal = sig
    · simp [link_mapping, hx]
    · simp [link_mapping, hx, ih]

theorem remove_mapping_while_signals (l entries : List mapper_signal_mapping) (mapping : Nat)
    (h : remove_mapping_while l mapping = some entries) :
    entries.map (fun sm => sm.signal) = l.map (fun sm => sm.signal) := by
  obtain ⟨pre, sm, post, c1, m, c2, hl, _, _, _, _, he⟩ := remove_mapping_while_eq_some _ _ _ h
  rw [hl, he]
  simp

/-- The search loop stops at the first entry for the signal: the entries before
it are for other signals. -/
theorem find_signal_mapping_eq_some (l : List mapper_signal_mapping) (sig : Nat)
    (sm : mapper_signal_mapping) (h : find_signal_mapping l sig = some sm) :
    ∃ pre post : List mapper_signal_mapping,
      l = pre ++ sm :: post ∧ sm.signal = sig ∧ ∀ e ∈ pre, e.signal ≠ sig := by
  induction l with
  | nil => simp [find_signal_mapping] at h
  | cons x rest ih =>
    by_cases hx : x.signal = sig
    · simp only [find_signal_mapping, hx, ne_eq, not_true_eq_false, if_false,
        Option.some.injEq] at h
      exact ⟨[], rest, by simp [h], by rw [← h]; exact hx, by simp⟩
    · simp only [find_signal_mapping, hx, ne_eq, not_false_eq_true, if_true] at h
      obtain ⟨pre, post, hl, hs, hpre⟩ := ih h
      refine ⟨x :: pre, post, by simp [hl], hs, ?_⟩
      intro e he
      rcases List.mem_cons.1 he with rfl | he
      · exact hx
      · exact hpre e he

theorem find_signal_mapping_append (pre post : List mapper_signal_mapping) (sig : Nat)
    (h : ∀ e ∈ pre, e.signal ≠ sig) :
    find_signal_mapping (pre ++ post) sig = find_signal_mapping post sig := by
  induction pre with
  | nil => rfl
  | cons x rest ih =>
    have hx : x.signal ≠ sig := h x (List.mem_cons_self _ _)
    simp only [List.cons_append, find_signal_mapping, hx, ne_eq, not_false_eq_true, if_true]
    exact ih (fun e he => h e (List.mem_cons_of_mem _ he))

theorem link_mapping_append (pre post : List mapper_signal_mapping) (sig : Nat)
    (m : mapper_mapping) (h : ∀ e ∈ pre, e.signal ≠ sig) :
    link_mapping (pre ++ post) sig m = pre ++ link_mapping post sig m := by
  induction pre with
  | nil => rfl
  | cons x rest ih =>
    have hx : x.signal ≠ sig := h x (List.mem_cons_self _ _)
    simp only [List.cons_append, link_mapping, hx, ne_eq, not_false_eq_true, if_true,
      List.cons.injEq, true_and]
    exact ih (fun e he => h e (List.mem_cons_of_mem _ he))

theorem find_link_mapping_other (l : List mapper_signal_mapping) (sig other : Nat)
    (m : mapper_mapping) (h : other ≠ sig) :
    find_signal_mapping (link_mapping l sig m) other = find_signal_mapping l other := by
  induction l with
  | nil => rfl
  | cons x rest ih =>
    by_cases hx : x.signal = sig
    · have hxo : x.signal ≠ other := fun e => h (e.symm.trans hx)
      simp only [link_mapping, hx, ne_eq, not_true_eq_false, if_false, find_signal_mapping]
      rw [← hx, if_pos hxo, if_pos hxo]
    · by_cases hxo : x.signal = other
      · simp only [link_mapping, hx, ne_eq, not_false_eq_true, if_true, find_signal_mapping]
        simp only [hxo, not_true_eq_false, if_false]
      · simp only [link_mapping, hx, ne_eq, not_false_eq_true, if_true, find_signal_mapping,
          hxo, ih]

theorem remove_mapping_while_append (pre post : List mapper_signal_mapping) (mapping : Nat)
    (h : ∀ e ∈ pre, ∀ x ∈ e.mapping, x.addr ≠ mapping) :
    remove_mapping_while (pre ++ post) mapping
      = (remove_mapping_while post mapping).map (fun rest => pre ++ rest) := by
  induction pre with
  | nil => simp
  | cons x rest ih =>
    have hx := (remove_mapping_scan_eq_none x.mapping mapping).2
      (h x (List.mem_cons_self _ _))
    have hrest := ih (fun e he => h e (List.mem_cons_of_mem _ he))
    show remove_mapping_while (x :: (rest ++ post)) mapping = _
    simp only [remove_mapping_while, hx, hrest, Option.map_map]
    rfl

theorem add_mapping_one_entry (router : mapper_router) (sig : mapper_signal)
    (dest_name : List Char) (dest_type : Char) (dest_length : Nat) (block : Nat)
    (h : one_entry_per_signal router) :
    one_entry_per_signal
      (mapper_router_add_mapping router sig dest_name dest_type dest_length block).2 := by
  unfold one_entry_per_signal at h ⊢
  unfold mapper_router_add_mapping
  split_ifs
  · exact h
  · cases hf : find_signal_mapping router.mappings sig.addr with
    | none =>
      have hnot := (find_signal_mapping_eq_none _ _).1 hf
      simp only [List.map_cons, List.nodup_cons, List.mem_map, not_exists, not_and]
      exact ⟨fun e he heq => hnot e he heq, h⟩
    | some sm =>
      simp only [link_mapping_signals]
      exact h

theorem remove_mapping_one_entry (router : mapper_router) (mapping : mapper_mapping)
    (h : one_entry_per_signal router) :
    one_entry_per_signal (mapper_router_remove_mapping router mapping).2 := by
  unfold one_entry_per_signal at h ⊢
  unfold mapper_router_remove_mapping
  cases hw : remove_mapping_while router.mappings mapping.addr with
  | none => exact h
  | some entries =>
    simp only [remove_mapping_while_signals _ _ _ hw]
    exact h

/-- C16: at most one signal entry exists per signal.  The property is kept by
every call of `mapper_router_add_mapping` and of `mapper_router_remove_mapping`,
and it holds in every state reachable from a freshly created router. -/
theorem one_entry_per_signal_invariant :
    (∀ (router : mapper_router) (sig : mapper_signal) (dest_name : List Char)
        (dest_type : Char) (dest_length block : Nat),
        one_entry_per_signal router →
        one_entry_per_signal
          (mapper_router_add_mapping router sig dest_name dest_type dest_length block).2)
    ∧ (∀ (router : mapper_router) (mapping : mapper_mapping),
        one_entry_per_signal router →
        one_entry_per_signal (mapper_router_remove_mapping router mapping).2)
    ∧ ∀ router : mapper_router, reachable router → one_entry_per_signal router := by
  refine ⟨add_mapping_one_entry, remove_mapping_one_entry, ?_⟩
  intro router hr
  induction hr with
  | fresh lo_address_new device host port name router hnew =>
    have hmaps : router.mappings = [] := by
      unfold mapper_router_new at hnew
      cases hres : lo_address_new host (sprintf_d port) with
      | none =>
        simp only [hres, Option.map_eq_some', Prod.mk.injEq, reduceCtorEq, false_and, and_false,
          exists_false] at hnew
      | some a =>
        simp only [hres, Option.some.injEq, Prod.mk.injEq, and_true] at hnew
        rw [← hnew]
    simp [one_entry_per_signal, hmaps]
  | add router sig dest_name dest_type dest_length block _ ih =>
    exact add_mapping_one_entry router sig dest_name dest_type dest_length block ih
  | remove router mapping _ ih => exact remove_mapping_one_entry router mapping ih

/-- C16 at the scenario: the router created for `("localhost", 9000, "/dest")`,
after `S` was mapped to `/dest/x` and to `/dest/y` and the first mapping was
removed, has one entry per signal. -/
theorem one_entry_per_signal_invariant_witness :
    one_entry_per_signal
      (mapper_router_remove_mapping scenario_router_xy
        (scenario_mapping ['/', 'd', 'e', 's', 't', '/', 'x'] 500)).2 :=
  one_entry_per_signal_invariant.2.2 _
    (reachable.remove _ _
      (reachable.add _ _ _ _ _ _
        (reachable.add _ _ _ _ _ _
          (reachable.fresh scenario_lo_address_new 1
            ['l', 'o', 'c', 'a', 'l', 'h', 'o', 's', 't'] 9000 ['/', 'd', 'e', 's', 't']
            scenario_router (by decide)))))

/-- The mapping a successful add returns, with the router it leaves. -/
theorem add_mapping_returned (router : mapper_router) (sig : mapper_signal)
    (dest_name : List Char) (dest_type : Char) (block : Nat) :
    (mapper_router_add_mapping router sig dest_name dest_type sig.props.length block).1
      = some { addr := block
               props :=
                 { src_name := sig.props.name
                   src_type := sig.props.type
                   src_length := sig.props.length
                   dest_name := dest_name
                   dest_type := dest_type
                   dest_length := sig.props.length
                   mode := mapper_mode_type.MO_UNDEFINED
                   expression := ['y', '=', 'x']
                   clip_min := mapper_clipping_type.CT_NONE
                   clip_max := mapper_clipping_type.CT_NONE
                   muted := 0 } } := by
  unfold mapper_router_add_mapping
  simp only [ne_eq, not_true_eq_false, if_false]
  cases find_signal_mapping router.mappings sig.addr <;> rfl

theorem link_mapping_eq (l : List mapper_signal_mapping) (sig : Nat) (m : mapper_mapping)
    (sm : mapper_signal_mapping) (h : find_signal_mapping l sig = some sm) :
    ∃ pre post : List mapper_signal_mapping,
      l = pre ++ sm :: post ∧ (∀ e ∈ pre, e.signal ≠ sig)
      ∧ link_mapping l sig m
          = pre ++ { signal := sm.signal, mapping := m :: sm.mapping } :: post := by
  obtain ⟨pre, post, hl, hs, hpre⟩ := find_signal_mapping_eq_some l sig sm h
  refine ⟨pre, post, hl, hpre, ?_⟩
  rw [hl, link_mapping_append pre _ sig m hpre]
  simp [link_mapping, hs]

/-- C17: after a successful `mapper_router_add_mapping` on signal `S`, the
collection of `S` is the new mapping followed by the previous collection of `S`
in its order; a new entry for `S` is put at the head of the list of entries only
when `S` had none, and otherwise the entry of `S` stays where it was; the entries
and collections of every other signal are unchanged. -/
theorem add_mapping_prepends (router : mapper_router) (sig : mapper_signal)
    (dest_name : List Char) (dest_type : Char) (dest_length : Nat) (block : Nat)
    (h : sig.props.length = dest_length) :
    ∃ m : mapper_mapping,
      (mapper_router_add_mapping router sig dest_name dest_type dest_length block).1 = some m
      ∧ find_signal_mapping
          (mapper_router_add_mapping router sig dest_name dest_type dest_length block).2.mappings
          sig.addr
        = some { signal := sig.addr
                 mapping := m :: (match find_signal_mapping router.mappings sig.addr with
                                  | none => []
                                  | some sm => sm.mapping) }
      ∧ (find_signal_mapping router.mappings sig.addr = none →
          (mapper_router_add_mapping router sig dest_name dest_type dest_length block).2.mappings
            = { signal := sig.addr, mapping := [m] } :: router.mappings)
      ∧ (∀ sm : mapper_signal_mapping, find_signal_mapping router.mappings sig.addr = some sm →
          ∃ pre post : List mapper_signal_mapping,
            router.mappings = pre ++ sm :: post
            ∧ (∀ e ∈ pre, e.signal ≠ sig.addr)
            ∧ (mapper_router_add_mapping router sig dest_name dest_type dest_length
                  block).2.mappings
                = pre ++ { signal := sm.signal, mapping := m :: sm.mapping } :: post)
      ∧ ∀ other : Nat, other ≠ sig.addr →
          find_signal_mapping
            (mapper_router_add_mapping router sig dest_name dest_type dest_length
              block).2.mappings other
          = find_signal_mapping router.mappings other := by
  subst h
  obtain ⟨m, hm, _, _, _, _, hfind⟩ :=
    add_mapping_find router sig dest_name dest_type sig.props.length block rfl
  have hmdef := add_mapping_returned router sig dest_name dest_type block
  rw [hm] at hmdef
  have hmeq := Option.some.inj hmdef
  refine ⟨m, hm, hfind, ?_, ?_, ?_⟩
  · intro hnone
    simp only [mapper_router_add_mapping, ne_eq, not_true_eq_false, if_false, hnone, hmeq]
  · intro sm hsome
    obtain ⟨pre, post, hl, hpre, hlink⟩ := link_mapping_eq router.mappings sig.addr m sm hsome
    refine ⟨pre, post, hl, hpre, ?_⟩
    simp only [mapper_router_add_mapping, ne_eq, not_true_eq_false, if_false, hsome]
    rw [← hmeq]
    exact hlink
  · intro other hother
    cases hf : find_signal_mapping router.mappings sig.addr with
    | none =>
      have hne : ¬ sig.addr = other := fun e => hother e.symm
      simp only [mapper_router_add_mapping, ne_eq, not_true_eq_false, if_false, hf,
        find_signal_mapping, hne, not_false_eq_true, if_true]
    | some sm =>
      simp only [mapper_router_add_mapping, ne_eq, not_true_eq_false, if_false, hf]
      exact find_link_mapping_other _ _ _ _ hother

/-- C17 at the scenario: mapping `S` to `/dest/y` on the router that maps `S` to
`/dest/x` puts the new mapping in front of the old one in the entry of `S`. -/
theorem add_mapping_prepends_witness :
    find_signal_mapping scenario_router_xy.mappings scenario_signal.addr
      = some { signal := 100
               mapping := [scenario_mapping ['/', 'd', 'e', 's', 't', '/', 'y'] 501,
                 scenario_mapping ['/', 'd', 'e', 's', 't', '/', 'x'] 500] } := by
  obtain ⟨m, hm, hfind, _⟩ :=
    add_mapping_prepends scenario_router_x scenario_signal
      ['/', 'd', 'e', 's', 't', '/', 'y'] 'f' 2 501 (by decide)
  have hmy : m = scenario_mapping ['/', 'd', 'e', 's', 't', '/', 'y'] 501 :=
    (Option.some.inj hm).symm
  subst hmy
  exact hfind

/-- C18: a signal entry is not pruned by removal.  After
`mapper_router_remove_mapping` removes the only mapping of a signal, the entry of
the signal is still in the router, with an empty collection; a dispatch for the
signal then makes no call and transmits nothing, and a query returns 0 and sends
nothing. -/
theorem entry_kept_after_last_removal (perform : transform_evaluator) (clip : clip_evaluator)
    (router : mapper_router) (sig : mapper_signal) (value : List Nat)
    (alias_arg : Option (List Char)) (sm : mapper_signal_mapping) (m : mapper_mapping)
    (hfind : find_signal_mapping router.mappings sig.addr = some sm)
    (honly : sm.mapping = [m])
    (hother : ∀ e ∈ router.mappings, e.signal ≠ sig.addr → ∀ x ∈ e.mapping, x.addr ≠ m.addr) :
    (mapper_router_remove_mapping router m).1 = 0
    ∧ find_signal_mapping (mapper_router_remove_mapping router m).2.mappings sig.addr
        = some { signal := sig.addr, mapping := [] }
    ∧ (mapper_router_remove_mapping router m).2.mappings.length = router.mappings.length
    ∧ (mapper_router_receive_signal perform clip (mapper_router_remove_mapping router m).2
        sig value).2 = []
    ∧ mapper_router_send_query (mapper_router_remove_mapping router m).2 sig alias_arg
        = some (0, []) := by
  obtain ⟨pre, post, hl, hs, hpre⟩ := find_signal_mapping_eq_some _ _ _ hfind
  have hpre_addr : ∀ e ∈ pre, ∀ x ∈ e.mapping, x.addr ≠ m.addr := by
    intro e he
    exact hother e (by rw [hl]; exact List.mem_append_left _ he) (hpre e he)
  have hwhile : remove_mapping_while router.mappings m.addr
      = some (pre ++ { signal := sig.addr, mapping := [] } :: post) := by
    rw [hl, remove_mapping_while_append pre _ _ hpre_addr]
    simp [remove_mapping_while, remove_mapping_scan, honly, hs]
  have hmaps : (mapper_router_remove_mapping router m).2.mappings
      = pre ++ { signal := sig.addr, mapping := [] } :: post := by
    simp only [mapper_router_remove_mapping, hwhile]
  have hfind2 : find_signal_mapping (mapper_router_remove_mapping router m).2.mappings sig.addr
      = some { signal := sig.addr, mapping := [] } := by
    rw [hmaps, find_signal_mapping_append pre _ _ hpre]
    simp [find_signal_mapping]
  refine ⟨by simp only [mapper_router_remove_mapping, hwhile], hfind2, ?_, ?_, ?_⟩
  · rw [hmaps, hl]
    simp
  · simp only [mapper_router_receive_signal, hfind2, receive_signal_while]
  · simp only [mapper_router_send_query, hfind2, send_query_while]

/-- C18 at the scenario: after the mapping of `S` to `/dest/x` is removed from the
router that holds only this mapping, the entry of `S` is there and empty, the
dispatch of `[1.0, 2.0]` makes no call and the query returns 0. -/
theorem entry_kept_after_last_removal_witness :
    (mapper_router_remove_mapping scenario_router_x
        (scenario_mapping ['/', 'd', 'e', 's', 't', '/', 'x'] 500)).2.mappings
      = [{ signal := 100, mapping := [] }]
    ∧ (mapper_router_receive_signal scenario_identity scenario_no_clip
        (mapper_router_remove_mapping scenario_router_x
          (scenario_mapping ['/', 'd', 'e', 's', 't', '/', 'x'] 500)).2
        scenario_signal scenario_value).2 = []
    ∧ mapper_router_send_query
        (mapper_router_remove_mapping scenario_router_x
          (scenario_mapping ['/', 'd', 'e', 's', 't', '/', 'x'] 500)).2
        scenario_signal (some scenario_alias) = some (0, []) :=
  ⟨by decide,
    (entry_kept_after_last_removal scenario_identity scenario_no_clip scenario_router_x
      scenario_signal scenario_value (some scenario_alias)
      { signal := 100, mapping := [scenario_mapping ['/', 'd', 'e', 's', 't', '/', 'x'] 500] }
      (scenario_mapping ['/', 'd', 'e', 's', 't', '/', 'x'] 500)
      (by decide) (by decide) (by decide)).2.2.2⟩

/-- C19: add followed by remove is a round trip on the mapping table.  For a
signal `S` with matching length and a block that is not the address of a mapping
the router holds (it is fresh from `calloc`), `mapper_router_add_mapping` and then
`mapper_router_remove_mapping` of the returned mapping returns 0 and gives back
the router there was before the add when `S` had an entry; when `S` had none, the
only difference is one new empty entry for `S` at the head of the list. -/
theorem add_then_remove_round_trip (router : mapper_router) (sig : mapper_signal)
    (dest_name : List Char) (dest_type : Char) (dest_length : Nat) (block : Nat)
    (h : sig.props.length = dest_length)
    (hfresh : ∀ e ∈ router.mappings, ∀ x ∈ e.mapping, x.addr ≠ block) :
    ∃ (m : mapper_mapping) (r1 : mapper_router),
      mapper_router_add_mapping router sig dest_name dest_type dest_length block = (some m, r1)
      ∧ (mapper_router_remove_mapping r1 m).1 = 0
      ∧ ((find_signal_mapping router.mappings sig.addr).isSome = true →
          (mapper_router_remove_mapping r1 m).2 = router)
      ∧ (find_signal_mapping router.mappings sig.addr = none →
          (mapper_router_remove_mapping r1 m).2
            = { addr := router.addr
                dest_name := router.dest_name
                device := router.device
                mappings := { signal := sig.addr, mapping := [] } :: router.mappings }) := by
  subst h
  have hmdef := add_mapping_returned router sig dest_name dest_type block
  refine ⟨_, _, Prod.ext hmdef rfl, ?_⟩
  cases hf : find_signal_mapping router.mappings sig.addr with
  | none =>
    simp [mapper_router_add_mapping, hf, mapper_router_remove_mapping, remove_mapping_while,
      remove_mapping_scan]
  | some sm =>
    obtain ⟨pre, post, hl, hpre, hlink⟩ := link_mapping_eq router.mappings sig.addr
      { addr := block
        props :=
          { src_name := sig.props.name
            src_type := sig.props.type
            src_length := sig.props.length
            dest_name := dest_name
            dest_type := dest_type
            dest_length := sig.props.length
            mode := mapper_mode_type.MO_UNDEFINED
            expression := ['y', '=', 'x']
            clip_min := mapper_clipping_type.CT_NONE
            clip_max := mapper_clipping_type.CT_NONE
            muted := 0 } } sm hf
    have hpre_addr : ∀ e ∈ pre, ∀ x ∈ e.mapping, x.addr ≠ block := by
      intro e he x hx
      exact hfresh e (by rw [hl]; exact List.mem_append_left _ he) x hx
    have hwhile := remove_mapping_while_append pre
      ({ signal := sm.signal
         mapping := { addr := block
                      props :=
                        { src_name := sig.props.name
                          src_type := sig.props.type
                          src_length := sig.props.length
                          dest_name := dest_name
                          dest_type := dest_type
                          dest_length := sig.props.length
                          mode := mapper_mode_type.MO_UNDEFINED
                          expression := ['y', '=', 'x']
                          clip_min := mapper_clipping_type.CT_NONE
                          clip_max := mapper_clipping_type.CT_NONE
                          muted := 0 } } :: sm.mapping } :: post) block hpre_addr
    simp only [remove_mapping_while, remove_mapping_scan, if_true, Option.map_some'] at hwhile
    simp only [mapper_router_add_mapping, ne_eq, not_true_eq_false, if_false, hf, hlink,
      mapper_router_remove_mapping, hwhile, Option.isSome_some, forall_true_left,
      reduceCtorEq, false_implies, and_true, true_and]
    rw [← hl]

/-- C19 at the scenario: mapping `S` to `/dest/y` on the router that maps `S` to
`/dest/x` and removing the returned mapping gives back that router. -/
theorem add_then_remove_round_trip_witness :
    mapper_router_remove_mapping scenario_router_xy
        (scenario_mapping ['/', 'd', 'e', 's', 't', '/', 'y'] 501)
      = (0, scenario_router_x) := by
  obtain ⟨m, r1, hadd, hret, hsome, _⟩ :=
    add_then_remove_round_trip scenario_router_x scenario_signal
      ['/', 'd', 'e', 's', 't', '/', 'y'] 'f' 2 501 (by decide) (by decide)
  have hr1 : r1 = scenario_router_xy := (congrArg Prod.snd hadd).symm
  have hm : m = scenario_mapping ['/', 'd', 'e', 's', 't', '/', 'y'] 501 :=
    (Option.some.inj (congrArg Prod.fst hadd)).symm
  subst hr1 hm
  exact Prod.ext hret (hsome (by decide))

/-! ### The first match of the lookup -/

theorem find_by_dest_name_while_eq_some (registry : List mapper_router) (name : List Char)
    (n : Nat) (r : mapper_router) (h : find_by_dest_name_while registry name n = some r) :
    ∃ pre post : List mapper_router,
      registry = pre ++ r :: post
      ∧ (∀ x ∈ pre, x.dest_name.take n ≠ name.take n)
      ∧ r.dest_name.take n = name.take n := by
  induction registry with
  | nil => simp [find_by_dest_name_while] at h
  | cons x rest ih =>
    by_cases hx : strncmp x.dest_name name n = 0
    · simp only [find_by_dest_name_while, hx, if_true, Option.some.injEq] at h
      subst h
      exact ⟨[], rest, rfl, by simp, (strncmp_eq_zero_iff _ _ _).1 hx⟩
    · simp only [find_by_dest_name_while, hx, if_false] at h
      obtain ⟨pre, post, hl, hpre, hr⟩ := ih h
      refine ⟨x :: pre, post, by simp [hl], ?_, hr⟩
      intro y hy
      rcases List.mem_cons.1 hy with rfl | hy
      · exact fun e => hx ((strncmp_eq_zero_iff _ _ _).2 e)
      · exact hpre y hy

theorem find_by_dest_name_while_eq_none (registry : List mapper_router) (name : List Char)
    (n : Nat) :
    find_by_dest_name_while registry name n = none
      ↔ ∀ x ∈ registry, x.dest_name.take n ≠ name.take n := by
  induction registry with
  | nil => simp [find_by_dest_name_while]
  | cons x rest ih =>
    by_cases hx : strncmp x.dest_name name n = 0
    · have := (strncmp_eq_zero_iff _ _ _).1 hx
      simp [find_by_dest_name_while, hx, this]
    · have hne : x.dest_name.take n ≠ name.take n :=
        fun e => hx ((strncmp_eq_zero_iff _ _ _).2 e)
      simp [find_by_dest_name_while, hx, ih, hne]

theorem slash_offset_zero (t : List Char) :
    slash_offset 0 t = (match strchr t '/' with
                        | some k => k
                        | none => t.length) := by
  induction t with
  | nil => rfl
  | cons x rest ih =>
    by_cases hx : x = '/'
    · simp [slash_offset, strchr, hx]
    · cases hs : strchr rest '/' with
      | none => rw [hs] at ih; simp [slash_offset, strchr, hx, hs, ih, Nat.add_comm]
      | some k => rw [hs] at ih; simp [slash_offset, strchr, hx, hs, ih, Nat.add_comm]

/-- C20 as stated fails for a lookup name that does not begin with `'/'`: the name
`ab/c` has no second `'/'`, so the claim compares its full length of 4 characters,
on which no router of the list agrees; the code compares 2 characters (up to the
first `'/'` after the first character) and returns the router `ab/x`.  It also
fails for the empty lookup name with `/s` stored behind its terminator: every
router agrees with it on its full length of 0 characters, and the code, which
searches behind the terminator, compares one character and returns null. -/
theorem find_by_dest_name_no_leading_slash :
    (mapper_router_find_by_dest_name [registry_router ['a', 'b', '/', 'x'] 1]
        ['a', 'b', '/', 'c'] []
      = some (registry_router ['a', 'b', '/', 'x'] 1)
    ∧ second_slash_offset ['a', 'b', '/', 'c'] = 4
    ∧ ∀ r ∈ [registry_router ['a', 'b', '/', 'x'] 1],
        r.dest_name.take (second_slash_offset ['a', 'b', '/', 'c'])
          ≠ ['a', 'b', '/', 'c'].take (second_slash_offset ['a', 'b', '/', 'c']))
    ∧ (mapper_router_find_by_dest_name [registry_router ['/', 's', 'y', 'n', 't', 'h', '1'] 1]
        [] ['/', 's'] = none
      ∧ second_slash_offset [] = 0
      ∧ ∀ r ∈ [registry_router ['/', 's', 'y', 'n', 't', 'h', '1'] 1],
          r.dest_name.take (second_slash_offset []) = ([] : List Char).take
            (second_slash_offset [])) := by
  decide

theorem compare_length_cons (c : Char) (t after : List Char) :
    compare_length (c :: t) after = slash_offset_after_first (c :: t) := by
  have h0 := slash_offset_zero t
  show (match strchr t '/' with
        | some k => k + 1
        | none => (c :: t).length) = 1 + slash_offset 0 t
  rw [h0]
  cases strchr t '/' <;> simp [Nat.add_comm]

/-- C20, amended: `mapper_router_find_by_dest_name` returns the first match in list
order.  For a lookup name that is not empty, with `n` the offset of the first
`'/'` found after the first character of the name, or the full length of the name
when there is none, the returned router is the earliest router of the list whose
destination name agrees with the lookup name on its first `n` characters, and
null is returned exactly when no router of the list agrees.  For a lookup name
that begins with `'/'`, `n` is the offset of its second `'/'`, or its full
length. -/
theorem find_by_dest_name_first_match (registry : List mapper_router)
    (dest_name after : List Char) (hname : dest_name ≠ []) :
    mapper_router_find_by_dest_name registry dest_name after
      = registry.find? (fun r =>
          decide (r.dest_name.take (slash_offset_after_first dest_name)
            = dest_name.take (slash_offset_after_first dest_name)))
    ∧ (∀ r : mapper_router,
        mapper_router_find_by_dest_name registry dest_name after = some r →
        ∃ pre post : List mapper_router,
          registry = pre ++ r :: post
          ∧ (∀ x ∈ pre, x.dest_name.take (slash_offset_after_first dest_name)
              ≠ dest_name.take (slash_offset_after_first dest_name))
          ∧ r.dest_name.take (slash_offset_after_first dest_name)
              = dest_name.take (slash_offset_after_first dest_name))
    ∧ (mapper_router_find_by_dest_name registry dest_name after = none
        ↔ ∀ x ∈ registry, x.dest_name.take (slash_offset_after_first dest_name)
            ≠ dest_name.take (slash_offset_after_first dest_name))
    ∧ (∀ t : List Char, dest_name = '/' :: t →
        slash_offset_after_first dest_name = second_slash_offset dest_name) := by
  cases dest_name with
  | nil => exact absurd rfl hname
  | cons c t =>
    have hn := compare_length_cons c t after
    refine ⟨?_, ?_, ?_, ?_⟩
    · unfold mapper_router_find_by_dest_name
      rw [hn]
      generalize slash_offset_after_first (c :: t) = n
      induction registry with
      | nil => rfl
      | cons r rest ih =>
        by_cases hr : strncmp r.dest_name (c :: t) n = 0
        · have := (strncmp_eq_zero_iff _ _ _).1 hr
          simp [find_by_dest_name_while, hr, List.find?_cons, this]
        · have hne : ¬ r.dest_name.take n = (c :: t).take n :=
            fun e => hr ((strncmp_eq_zero_iff _ _ _).2 e)
          simp [find_by_dest_name_while, hr, List.find?_cons, hne, ih]
    · intro r hr
      unfold mapper_router_find_by_dest_name at hr
      rw [hn] at hr
      exact find_by_dest_name_while_eq_some registry (c :: t) _ r hr
    · unfold mapper_router_find_by_dest_name
      rw [hn]
      exact find_by_dest_name_while_eq_none registry (c :: t) _
    · intro t2 ht
      rw [ht]
      simp [slash_offset_after_first, second_slash_offset, slash_offset]

/-- C20 at an example: of the two routers created as `/synth1`, the lookup of
`/synth1/freq` returns the earlier one, after passing over `/other`. -/
theorem find_by_dest_name_first_match_witness :
    mapper_router_find_by_dest_name
        [registry_router ['/', 'o', 't', 'h', 'e', 'r'] 1,
          registry_router ['/', 's', 'y', 'n', 't', 'h', '1'] 2,
          registry_router ['/', 's', 'y', 'n', 't', 'h', '1'] 3]
        ['/', 's', 'y', 'n', 't', 'h', '1', '/', 'f', 'r', 'e', 'q'] []
      = some (registry_router ['/', 's', 'y', 'n', 't', 'h', '1'] 2) :=
  (find_by_dest_name_first_match
    [registry_router ['/', 'o', 't', 'h', 'e', 'r'] 1,
      registry_router ['/', 's', 'y', 'n', 't', 'h', '1'] 2,
      registry_router ['/', 's', 'y', 'n', 't', 'h', '1'] 3]
    ['/', 's', 'y', 'n', 't', 'h', '1', '/', 'f', 'r', 'e', 'q'] [] (by decide)).1.trans
    (by decide)

end Mapper
